import Mathlib

/-!
# Wellness Insight Engine — verification of the analytics core

A shallow embedding of the analytics engine of `src/analyser.js`
(class `WellnessAnalyzer`): the mood, habit and study calculators, the
recommendation generator, the report assembler and the two exporters.

Modelling conventions:
* JavaScript numbers are modelled as rationals (`ℚ`); counts as `ℕ`.
* `Math.round` rounds half toward positive infinity (`jsRound`).
* JavaScript objects whose set of keys depends on the code path are modelled
  as records with `Option` fields; a missing key (`undefined`) and a `null`
  value are both modelled as `none`.
* JavaScript objects used as keyed maps preserve insertion order of string
  keys, so they are modelled as association lists built in insertion order.
* Every division the analyser performs behind an emptiness guard is exact
  division on `ℚ`.  The one unguarded division — the regression slope of
  `calculateTrend`, which is `0/0 = NaN` for a single-entry series — is
  modelled explicitly: `JSNum` adjoins NaN, NaN comparisons are false, and
  the JSON encoder serializes NaN as null, as `JSON.stringify` does.
  Divisions that cannot be reached with a zero denominator (per-group rates
  over non-empty groups) stay on `ℚ`, whose division-by-zero convention is
  never exercised there.
* Dates are modelled as day numbers and session timestamps as hour counts
  (`getHours` is `timestamp % 24`); the calendar itself is not analysed.
-/

/- Rational arithmetic is `@[irreducible]` upstream; concrete evaluation of
the analytics (for `decide`-checked fixtures) needs the definitions back. -/
attribute [local semireducible] Rat.add Rat.mul Rat.sub Rat.inv Rat.ofScientific

/-- JavaScript `Math.round`: round half toward positive infinity. -/
def jsRound (q : ℚ) : ℤ := ⌊q + 1 / 2⌋

/-- `Math.round (Math.sqrt v * 100) / 100` computed exactly on rationals:
the two-decimal rounding of the real square root of `v`.  The agreement with
`Real.sqrt` is proved in `sqrtRound2_eq_real`. -/
def sqrtRound2 (v : ℚ) : ℚ :=
  (((Nat.sqrt (⌊40000 * v⌋).toNat + 1) / 2 : ℕ) : ℚ) / 100

/-- A JavaScript number that may be NaN.  `calculateTrend` divides by zero
on a single-entry series (the specification's DegenerateInput, which the
source does not guard), and the resulting NaN propagates through
`Math.round` into the stored `trend_slope` — the only report field that can
hold NaN. -/
inductive JSNum where
  | nan : JSNum
  | num : ℚ → JSNum
deriving DecidableEq

/-- JavaScript division for `calculateTrend`: a zero denominator yields a
non-number.  With a zero denominator the source yields NaN when the
numerator is also 0 — the only case the analyser reaches, since its x-values
are 0,…,n−1, making numerator and denominator vanish together (at n ≤ 1) —
and ±Infinity otherwise; the model folds the unreachable Infinity case into
`nan` as well. -/
def jsDiv (a b : ℚ) : JSNum :=
  if b = 0 then .nan else .num (a / b)

/-- `a > c` for a possibly-NaN number: every NaN comparison is false. -/
def JSNum.gt : JSNum → ℚ → Bool
  | .nan, _ => false
  | .num q, c => q > c

/-- `a < c` for a possibly-NaN number: every NaN comparison is false. -/
def JSNum.lt : JSNum → ℚ → Bool
  | .nan, _ => false
  | .num q, c => q < c

/-- `Math.round(a * 10000) / 10000` with NaN propagated. -/
def roundSlope4 : JSNum → JSNum
  | .nan => .nan
  | .num q => .num ((jsRound (q * 10000) : ℚ) / 10000)

/-- A mood diary entry (`mood_level` is 1–5 and `energy_level` 1–100 in
intent; the analyser does not enforce it). -/
structure MoodEntry where
  date : ℕ
  mood_level : ℚ
  energy_level : ℚ
  notes : String
deriving DecidableEq

/-- A habit log entry; `completed` and `target` are counts. -/
structure HabitEntry where
  name : String
  date : ℕ
  completed : ℕ
  target : ℕ
deriving DecidableEq

/-- A study session; `timestamp` is modelled as an hour count. -/
structure StudySession where
  subject : String
  date : ℕ
  duration_minutes : ℕ
  completed : Bool
  timestamp : ℕ
deriving DecidableEq

/-- `session.timestamp.getHours()` under the hour-count timestamp model. -/
def StudySession.getHours (s : StudySession) : ℕ := s.timestamp % 24

/-- Result object of `calculateMoodInsights`.  The empty-input shape carries
only `average`, `trend` and `volatility`; the remaining keys are absent
(`none`). -/
structure MoodInsights where
  average : ℚ
  trend : String
  volatility : ℚ
  trend_slope : Option JSNum := none
  best_weekday : Option String := none
  worst_weekday : Option String := none
  weekday_patterns : Option (List (String × ℚ)) := none
deriving DecidableEq

/-- Result object of `analyzeHabitPatterns`.  The empty-input shape carries
`completion_rate`, `streaks` and `patterns`; the non-empty shape carries the
other five keys. -/
structure HabitInsights where
  completion_rate : Option ℚ := none
  streaks : Option (List (String × ℕ)) := none
  patterns : Option (List (String × ℚ)) := none
  overall_completion_rate : Option ℚ := none
  individual_completion_rates : Option (List (String × ℚ)) := none
  current_streaks : Option (List (String × ℕ)) := none
  most_consistent_habit : Option String := none
  needs_attention : Option String := none
deriving DecidableEq

/-- Per-hour bucket of `analyzeStudyPerformance`. -/
structure HourData where
  sessions : ℕ
  completed : ℕ
  totalDuration : ℕ
deriving DecidableEq

/-- Per-subject bucket of `analyzeStudyPerformance`. -/
structure SubjectData where
  sessions : ℕ
  totalDuration : ℕ
  completed : ℕ
deriving DecidableEq

/-- Result object of `analyzeStudyPerformance`.  The empty-input shape
carries `total_sessions`, `avg_duration` and `efficiency`; the non-empty
shape carries the rest, where `best_study_hour` may itself be `null`. -/
structure StudyInsights where
  total_sessions : ℕ
  avg_duration : ℚ
  efficiency : Option ℚ := none
  total_minutes : Option ℕ := none
  completion_rate : Option ℚ := none
  best_study_hour : Option ℕ := none
  hourly_patterns : Option (List (ℕ × HourData)) := none
  subject_performance : Option (List (String × SubjectData)) := none
deriving DecidableEq

/-- Insert key `k` with value `v₀` at the end unless present
(`if (!m[k]) m[k] = v₀`, with object insertion order). -/
def ensureKey {κ β : Type} [BEq κ] (m : List (κ × β)) (k : κ) (v₀ : β) :
    List (κ × β) :=
  if (m.lookup k).isSome then m else m ++ [(k, v₀)]

/-- Update the value at key `k` in place (`m[k] = f m[k]`). -/
def updateKey {κ β : Type} [BEq κ] (m : List (κ × β)) (k : κ) (f : β → β) :
    List (κ × β) :=
  m.map (fun p => if p.1 == k then (p.1, f p.2) else p)

/-- `m[k].push v`, creating `m[k] = []` first when the key is absent. -/
def pushGroup {κ α : Type} [BEq κ] (m : List (κ × List α)) (k : κ) (v : α) :
    List (κ × List α) :=
  updateKey (ensureKey m k []) k (fun g => g ++ [v])

/-- `keys.reduce((a, b) => score a > score b ? a : b)`; `""` on no keys. -/
def reduceMaxKey (score : String → ℚ) : List String → String
  | [] => ""
  | k :: ks => ks.foldl (fun a b => if score a > score b then a else b) k

/-- `keys.reduce((a, b) => score a < score b ? a : b)`; `""` on no keys. -/
def reduceMinKey (score : String → ℚ) : List String → String
  | [] => ""
  | k :: ks => ks.foldl (fun a b => if score a < score b then a else b) k

/-- Weekday names as produced by `toLocaleDateString`; day 0 of the day-number
model is mapped to the first name. -/
def weekdayNames : List String :=
  ["Thursday", "Friday", "Saturday", "Sunday", "Monday", "Tuesday", "Wednesday"]

/-- The weekday name of a model day number. -/
def weekdayName (d : ℕ) : String := weekdayNames.getD (d % 7) ""

/-- `calculateTrend` of analyser.js: least-squares slope of the points,
NaN when the denominator is zero (the caller does not guard this). -/
def calculateTrend (data : List (ℚ × ℚ)) : JSNum :=
  let n : ℚ := data.length
  let sumX := data.foldl (fun sum point => sum + point.1) 0
  let sumY := data.foldl (fun sum point => sum + point.2) 0
  let sumXY := data.foldl (fun sum point => sum + point.1 * point.2) 0
  let sumXX := data.foldl (fun sum point => sum + point.1 * point.1) 0
  jsDiv (n * sumXY - sumX * sumY) (n * sumXX - sumX * sumX)

/-- The neutral result of `calculateMoodInsights` for empty input. -/
def emptyMoodInsights : MoodInsights :=
  { average := 0, trend := "no_data", volatility := 0 }

/-- `calculateMoodInsights` of analyser.js. -/
def calculateMoodInsights (moodData : List MoodEntry) : MoodInsights :=
  if moodData.isEmpty then emptyMoodInsights
  else
    let avgMood :=
      moodData.foldl (fun sum entry => sum + entry.mood_level) 0 /
        (moodData.length : ℚ)
    let trend := calculateTrend
      (moodData.enum.map (fun p => ((p.1 : ℚ), p.2.mood_level)))
    let variance :=
      moodData.foldl (fun sum entry => sum + (entry.mood_level - avgMood) ^ 2) 0 /
        (moodData.length : ℚ)
    let weekdayMoods := moodData.foldl
      (fun m entry => pushGroup m (weekdayName entry.date) entry.mood_level) []
    let weekdayAverages := weekdayMoods.map
      (fun p => (p.1, p.2.foldl (fun sum mood => sum + mood) 0 / (p.2.length : ℚ)))
    let score := fun day => ((weekdayAverages.lookup day).getD 0)
    { average := (jsRound (avgMood * 100) : ℚ) / 100
      trend := if trend.gt 0.05 then "improving"
               else if trend.lt (-0.05) then "declining" else "stable"
      trend_slope := some (roundSlope4 trend)
      volatility := sqrtRound2 variance
      best_weekday := some (reduceMaxKey score (weekdayAverages.map Prod.fst))
      worst_weekday := some (reduceMinKey score (weekdayAverages.map Prod.fst))
      weekday_patterns := some weekdayAverages }

/-- The neutral result of `analyzeHabitPatterns` for empty input. -/
def emptyHabitInsights : HabitInsights :=
  { completion_rate := some 0, streaks := some [], patterns := some [] }

/-- The grouping of habit entries by `name` (insertion order preserved). -/
def habitGroups (habitData : List HabitEntry) : List (String × List HabitEntry) :=
  habitData.foldl (fun groups entry => pushGroup groups entry.name entry) []

/-- Insert an entry into a date-sorted list, after all strictly earlier
dates and before equal ones, so that the overall sort is stable. -/
def insertByDate (e : HabitEntry) : List HabitEntry → List HabitEntry
  | [] => [e]
  | x :: xs => if x.date < e.date then x :: insertByDate e xs else e :: x :: xs

/-- `habits.sort((a, b) => a.date - b.date)`: stable sort by date ascending
(modern JavaScript engines sort stably; insertion sort realises that). -/
def sortByDate (habits : List HabitEntry) : List HabitEntry :=
  habits.foldr insertByDate []

/-- `h.completed >= h.target`: the entry meets its target. -/
def meetsTarget (h : HabitEntry) : Bool := h.completed ≥ h.target

/-- The backward streak walk of analyser.js: starting from the last entry,
count entries while `completed ≥ target`, stopping at the first failure. -/
def currentStreak (habits : List HabitEntry) : ℕ :=
  (habits.reverse.takeWhile meetsTarget).length

/-- Per-habit completion rate: qualifying entries over all entries for the
habit, rounded to 3 decimal places. -/
def habitCompletionRate (habits : List HabitEntry) : ℚ :=
  (jsRound (((habits.filter meetsTarget).length : ℚ) / (habits.length : ℚ) * 1000) : ℚ) / 1000

/-- `analyzeHabitPatterns` of analyser.js. -/
def analyzeHabitPatterns (habitData : List HabitEntry) : HabitInsights :=
  if habitData.isEmpty then emptyHabitInsights
  else
    let groups := habitGroups habitData
    let completionRates := groups.map (fun p => (p.1, habitCompletionRate (sortByDate p.2)))
    let streaks := groups.map (fun p => (p.1, currentStreak (sortByDate p.2)))
    let totalCompleted := habitData.foldl (fun sum h => sum + (h.completed : ℚ)) 0
    let totalTarget := habitData.foldl (fun sum h => sum + (h.target : ℚ)) 0
    let overallCompletion := if totalTarget > 0 then totalCompleted / totalTarget else 0
    let score := fun name => ((completionRates.lookup name).getD 0)
    { overall_completion_rate := some ((jsRound (overallCompletion * 1000) : ℚ) / 1000)
      individual_completion_rates := some completionRates
      current_streaks := some streaks
      most_consistent_habit := some (reduceMaxKey score (completionRates.map Prod.fst))
      needs_attention := some (reduceMinKey score (completionRates.map Prod.fst)) }

/-- The neutral result of `analyzeStudyPerformance` for empty input. -/
def emptyStudyInsights : StudyInsights :=
  { total_sessions := 0, avg_duration := 0, efficiency := some 0 }

/-- One step of the hour-of-day bucketing loop. -/
def hourStep (hourly : List (ℕ × HourData)) (session : StudySession) :
    List (ℕ × HourData) :=
  let hour := session.getHours
  updateKey (ensureKey hourly hour ⟨0, 0, 0⟩) hour (fun d =>
    { sessions := d.sessions + 1
      completed := d.completed + (if session.completed then 1 else 0)
      totalDuration := d.totalDuration + session.duration_minutes })

/-- The hour-of-day buckets of `analyzeStudyPerformance`. -/
def hourlyBuckets (studyData : List StudySession) : List (ℕ × HourData) :=
  studyData.foldl hourStep []

/-- One step of the subject bucketing loop. -/
def subjectStep (subjects : List (String × SubjectData)) (session : StudySession) :
    List (String × SubjectData) :=
  updateKey (ensureKey subjects session.subject ⟨0, 0, 0⟩) session.subject (fun d =>
    { sessions := d.sessions + 1
      totalDuration := d.totalDuration + session.duration_minutes
      completed := d.completed + (if session.completed then 1 else 0) })

/-- The subject buckets of `analyzeStudyPerformance`. -/
def subjectBuckets (studyData : List StudySession) : List (String × SubjectData) :=
  studyData.foldl subjectStep []

/-- The best-hour selection loop: keep the hour with the strictly highest
completed/sessions ratio, starting from `null` and ratio 0. -/
def bestStudyHour (hourly : List (ℕ × HourData)) : Option ℕ :=
  (hourly.foldl (fun best p =>
      let rate : ℚ := (p.2.completed : ℚ) / (p.2.sessions : ℚ)
      if rate > best.2 then (some p.1, rate) else best)
    ((none : Option ℕ), (0 : ℚ))).1

/-- `analyzeStudyPerformance` of analyser.js. -/
def analyzeStudyPerformance (studyData : List StudySession) : StudyInsights :=
  if studyData.isEmpty then emptyStudyInsights
  else
    let totalSessions := studyData.length
    let totalMinutes : ℕ := studyData.foldl (fun sum s => sum + s.duration_minutes) 0
    let avgDuration : ℚ := (totalMinutes : ℚ) / (totalSessions : ℚ)
    let completedSessions := (studyData.filter (fun s => s.completed)).length
    let completionRate : ℚ := (completedSessions : ℚ) / (totalSessions : ℚ)
    let hourlyData := hourlyBuckets studyData
    let subjectData := subjectBuckets studyData
    { total_sessions := totalSessions
      total_minutes := some totalMinutes
      avg_duration := (jsRound (avgDuration * 10) : ℚ) / 10
      completion_rate := some ((jsRound (completionRate * 1000) : ℚ) / 1000)
      best_study_hour := bestStudyHour hourlyData
      hourly_patterns := some hourlyData
      subject_performance := some subjectData }

/-- Recommendation text for a declining mood trend. -/
def moodDecliningMsg : String :=
  "Your mood has been declining recently. Consider incorporating more mindfulness practices or reaching out for support."

/-- Recommendation text for high mood volatility. -/
def moodVolatileMsg : String :=
  "Your mood shows high variability. Maintaining consistent sleep and exercise routines may help stabilize your emotional well-being."

/-- Recommendation text for a low overall habit completion rate. -/
def habitLowMsg : String :=
  "Your habit completion rate is below 70%. Consider reducing the number of habits or making them smaller and more achievable."

/-- Recommendation text naming the habit needing attention (the source wraps
the name in single quotes; the quotes are omitted here). -/
def needsAttentionMsg (name : String) : String :=
  "Your " ++ name ++ " habit needs attention. Consider pairing it with an existing strong habit or adjusting the difficulty."

/-- Recommendation text naming the best study hour. -/
def studyHourMsg (hour : ℕ) : String :=
  "You perform best during " ++ toString hour ++ ":00. Try scheduling more important study sessions during this time."

/-- `undefined < c` is false in JavaScript: a missing numeric field never
passes a `<` comparison. -/
def ltOpt : Option ℚ → ℚ → Bool
  | some q, c => q < c
  | none, _ => false

/-- The insight bundle handed to `generateRecommendations` (each section may
be absent). -/
structure Insights where
  mood : Option MoodInsights
  habits : Option HabitInsights
  study : Option StudyInsights
deriving DecidableEq

/-- `generateRecommendations` of analyser.js: sequential rule evaluation.
`insights.study.best_study_hour && ...` is JavaScript truthiness, so a best
hour of 0 behaves like an absent one, and an empty `needs_attention` string
behaves like an absent habit name. -/
def generateRecommendations (insights : Insights) : List String :=
  (match insights.mood with
   | none => []
   | some m =>
     (if m.trend = "declining" then [moodDecliningMsg] else []) ++
     (if m.volatility > 1.5 then [moodVolatileMsg] else [])) ++
  (match insights.habits with
   | none => []
   | some h =>
     (if ltOpt h.overall_completion_rate 0.7 then [habitLowMsg] else []) ++
     (match h.needs_attention with
      | some name => if name ≠ "" then [needsAttentionMsg name] else []
      | none => [])) ++
  (match insights.study with
   | none => []
   | some st =>
     match st.best_study_hour with
     | some hour =>
       if hour ≠ 0 ∧ ltOpt st.completion_rate 0.8 then [studyHourMsg hour] else []
     | none => [])

/-- The `analysis_period` metadata of a report. -/
structure AnalysisPeriod where
  days : ℕ
  start_date : String
  end_date : String
deriving DecidableEq

/-- The `data_quality` entry counts of a report. -/
structure DataQuality where
  mood_entries : ℕ
  habit_entries : ℕ
  study_entries : ℕ
  period_entries : ℕ
deriving DecidableEq

/-- The assembled wellness report. -/
structure Report where
  user_id : String
  analysis_period : AnalysisPeriod
  insights : Insights
  recommendations : List String
  generated_at : String
  data_quality : DataQuality
deriving DecidableEq

/-- The pure core of `createWellnessReport`: analyse the three series,
generate recommendations and assemble the report.  Clock-derived values
(period metadata, generation timestamp) are passed in, and the period series
is carried only for its entry count. -/
def createWellnessReport (userId : String) (period : AnalysisPeriod)
    (generatedAt : String) (mood : List MoodEntry) (habits : List HabitEntry)
    (study : List StudySession) (periodData : List Unit) : Report :=
  let allInsights : Insights :=
    { mood := some (calculateMoodInsights mood)
      habits := some (analyzeHabitPatterns habits)
      study := some (analyzeStudyPerformance study) }
  { user_id := userId
    analysis_period := period
    insights := allInsights
    recommendations := generateRecommendations allInsights
    generated_at := generatedAt
    data_quality :=
      { mood_entries := mood.length
        habit_entries := habits.length
        study_entries := study.length
        period_entries := periodData.length } }

/-- Left-pad a digit string with zeros to length `n`. -/
def padLeftZeros (s : String) (n : ℕ) : String :=
  String.mk (List.replicate (n - s.length) '0') ++ s

/-- Render a rational in JavaScript number notation.  Exact whenever the
denominator divides 10000, which covers every metric the report stores
(all are rounded to at most 4 decimal places); other denominators fall back
to a fraction rendering. -/
def numToString (q : ℚ) : String :=
  if 10000 % q.den = 0 then
    let sign := if q < 0 then "-" else ""
    let m := q.num.natAbs * (10000 / q.den)
    let ipart := m / 10000
    let fpart := m % 10000
    if fpart = 0 then sign ++ toString ipart
    else
      sign ++ toString ipart ++ "." ++
        (padLeftZeros (toString fpart) 4).dropRightWhile (fun c => c = '0')
  else toString q.num ++ "/" ++ toString q.den

/-- Interpolate a possibly-missing number (`undefined` when absent). -/
def optNumToString : Option ℚ → String
  | some q => numToString q
  | none => "undefined"

/-- Interpolate a possibly-missing string (`undefined` when absent). -/
def optStrToString : Option String → String
  | some s => s
  | none => "undefined"

/-- Interpolate `best_study_hour` (`null` when not set). -/
def bestHourToString : Option ℕ → String
  | some h => toString h
  | none => "null"

/-- The metric rows of `exportReportCSV`: three mood rows, two habit rows and
three study rows, each section skipped when its insight object is absent. -/
def csvMetricRows (report : Report) : List String :=
  (match report.insights.mood with
   | none => []
   | some m =>
     ["mood_average," ++ numToString m.average ++ ",mood",
      "mood_trend," ++ m.trend ++ ",mood",
      "mood_volatility," ++ numToString m.volatility ++ ",mood"]) ++
  (match report.insights.habits with
   | none => []
   | some h =>
     ["habit_completion_rate," ++ optNumToString h.overall_completion_rate ++ ",habits",
      "most_consistent_habit," ++ optStrToString h.most_consistent_habit ++ ",habits"]) ++
  (match report.insights.study with
   | none => []
   | some st =>
     ["study_completion_rate," ++ optNumToString st.completion_rate ++ ",study",
      "avg_study_duration," ++ numToString st.avg_duration ++ ",study",
      "best_study_hour," ++ bestHourToString st.best_study_hour ++ ",study"])

/-- A recommendation row: `recommendation_${index+1},"${rec}",recommendations`. -/
def recommendationRow (p : ℕ × String) : String :=
  "recommendation_" ++ toString (p.1 + 1) ++ ",\"" ++ p.2 ++ "\",recommendations"

/-- The row-building core of `exportReportCSV` (the file write is plumbing):
header row, then metric rows, then one numbered row per recommendation. -/
def exportReportCSVRows (report : Report) : List String :=
  "metric,value,category" :: csvMetricRows report ++
    report.recommendations.enum.map recommendationRow

/-- A JSON value, as produced by `JSON.stringify` on the report. -/
inductive JValue where
  | null : JValue
  | num : ℚ → JValue
  | str : String → JValue
  | arr : List JValue → JValue
  | obj : List (String × JValue) → JValue

/-- Encode a possibly-missing number. -/
def encOptNum : Option ℚ → JValue
  | some q => .num q
  | none => .null

/-- Encode a possibly-missing, possibly-NaN number: `JSON.stringify`
serializes NaN as null. -/
def encOptJSNum : Option JSNum → JValue
  | some (.num q) => .num q
  | some .nan => .null
  | none => .null

/-- Encode a possibly-missing count. -/
def encOptNat : Option ℕ → JValue
  | some n => .num n
  | none => .null

/-- Encode a possibly-missing string. -/
def encOptStr : Option String → JValue
  | some s => .str s
  | none => .null

/-- Encode a string-keyed map of numbers. -/
def encNumMap (l : List (String × ℚ)) : JValue :=
  .obj (l.map (fun p => (p.1, .num p.2)))

/-- Encode a string-keyed map of counts. -/
def encNatMap (l : List (String × ℕ)) : JValue :=
  .obj (l.map (fun p => (p.1, .num p.2)))

/-- Encode an hour bucket. -/
def encodeHourData (d : HourData) : JValue :=
  .obj [("sessions", .num d.sessions), ("completed", .num d.completed),
        ("totalDuration", .num d.totalDuration)]

/-- Encode a subject bucket. -/
def encodeSubjectData (d : SubjectData) : JValue :=
  .obj [("sessions", .num d.sessions), ("totalDuration", .num d.totalDuration),
        ("completed", .num d.completed)]

/-- Encode a mood insight object. -/
def encodeMood (m : MoodInsights) : JValue :=
  .obj [("average", .num m.average), ("trend", .str m.trend),
        ("trend_slope", encOptJSNum m.trend_slope), ("volatility", .num m.volatility),
        ("best_weekday", encOptStr m.best_weekday),
        ("worst_weekday", encOptStr m.worst_weekday),
        ("weekday_patterns",
          match m.weekday_patterns with
          | some l => encNumMap l
          | none => .null)]

/-- Encode a habit insight object. -/
def encodeHabits (h : HabitInsights) : JValue :=
  .obj [("completion_rate", encOptNum h.completion_rate),
        ("streaks", match h.streaks with | some l => encNatMap l | none => .null),
        ("patterns", match h.patterns with | some l => encNumMap l | none => .null),
        ("overall_completion_rate", encOptNum h.overall_completion_rate),
        ("individual_completion_rates",
          match h.individual_completion_rates with
          | some l => encNumMap l
          | none => .null),
        ("current_streaks",
          match h.current_streaks with | some l => encNatMap l | none => .null),
        ("most_consistent_habit", encOptStr h.most_consistent_habit),
        ("needs_attention", encOptStr h.needs_attention)]

/-- Encode a study insight object; hour bucket keys become strings, as
JavaScript object keys are strings. -/
def encodeStudy (st : StudyInsights) : JValue :=
  .obj [("total_sessions", .num st.total_sessions),
        ("avg_duration", .num st.avg_duration),
        ("efficiency", encOptNum st.efficiency),
        ("total_minutes", encOptNat st.total_minutes),
        ("completion_rate", encOptNum st.completion_rate),
        ("best_study_hour", encOptNat st.best_study_hour),
        ("hourly_patterns",
          match st.hourly_patterns with
          | some l => .obj (l.map (fun p => (toString p.1, encodeHourData p.2)))
          | none => .null),
        ("subject_performance",
          match st.subject_performance with
          | some l => .obj (l.map (fun p => (p.1, encodeSubjectData p.2)))
          | none => .null)]

/-- The structured (JSON) encoding written by `exportReportJSON`
(`JSON.stringify(report, null, 2)`, modelled up to the JSON value tree). -/
def encodeReport (r : Report) : JValue :=
  .obj [("user_id", .str r.user_id),
        ("analysis_period",
          .obj [("days", .num r.analysis_period.days),
                ("start_date", .str r.analysis_period.start_date),
                ("end_date", .str r.analysis_period.end_date)]),
        ("insights",
          .obj [("mood", match r.insights.mood with
                         | some m => encodeMood m
                         | none => .null),
                ("habits", match r.insights.habits with
                           | some h => encodeHabits h
                           | none => .null),
                ("study", match r.insights.study with
                          | some st => encodeStudy st
                          | none => .null)]),
        ("recommendations", .arr (r.recommendations.map .str)),
        ("generated_at", .str r.generated_at),
        ("data_quality",
          .obj [("mood_entries", .num r.data_quality.mood_entries),
                ("habit_entries", .num r.data_quality.habit_entries),
                ("study_entries", .num r.data_quality.study_entries),
                ("period_entries", .num r.data_quality.period_entries)])]

/-- Decode a JSON number. -/
def decNum : JValue → Option ℚ
  | .num q => some q
  | _ => none

/-- Decode a JSON string. -/
def decStr : JValue → Option String
  | .str s => some s
  | _ => none

/-- Decode a list of JSON strings. -/
def decStrs : List JValue → Option (List String)
  | [] => some []
  | v :: rest => do
      let s ← decStr v
      let tail ← decStrs rest
      pure (s :: tail)

/-- Decode a JSON array of strings. -/
def decStrList : JValue → Option (List String)
  | .arr elems => decStrs elems
  | _ => none

/-- Decode a JSON number that must be a count. -/
def decNat : JValue → Option ℕ
  | .num q => if q.den = 1 ∧ 0 ≤ q.num then some q.num.toNat else none
  | _ => none

/-- Decode a nullable number. -/
def decOptNum : JValue → Option (Option ℚ)
  | .null => some none
  | v => (decNum v).map some

/-- Decode a nullable number into the NaN-able model: JSON has no NaN, so
`null` reads back as an absent value — never as `nan`. -/
def decOptJSNum : JValue → Option (Option JSNum)
  | .null => some none
  | .num q => some (some (.num q))
  | _ => none

/-- Decode a nullable count. -/
def decOptNat : JValue → Option (Option ℕ)
  | .null => some none
  | v => (decNat v).map some

/-- Decode a nullable string. -/
def decOptStr : JValue → Option (Option String)
  | .null => some none
  | v => (decStr v).map some

/-- Decode every value of a keyed field list, keeping the keys. -/
def decPairsWith {β : Type} (d : JValue → Option β) :
    List (String × JValue) → Option (List (String × β))
  | [] => some []
  | p :: rest => do
      let b ← d p.2
      let tail ← decPairsWith d rest
      pure ((p.1, b) :: tail)

/-- Decode a string-keyed map of numbers. -/
def decNumMap : JValue → Option (List (String × ℚ))
  | .obj fields => decPairsWith decNum fields
  | _ => none

/-- Decode a string-keyed map of counts. -/
def decNatMap : JValue → Option (List (String × ℕ))
  | .obj fields => decPairsWith decNat fields
  | _ => none

/-- Decode a nullable string-keyed map of numbers. -/
def decOptNumMap : JValue → Option (Option (List (String × ℚ)))
  | .null => some none
  | v => (decNumMap v).map some

/-- Decode a nullable string-keyed map of counts. -/
def decOptNatMap : JValue → Option (Option (List (String × ℕ)))
  | .null => some none
  | v => (decNatMap v).map some

/-- Decode a stringified hour-of-day key (hours are 0–23). -/
def decHourKey (s : String) : Option ℕ :=
  (List.range 24).find? (fun h => toString h == s)

/-- Decode an hour bucket. -/
def decHourData : JValue → Option HourData
  | .obj fields => do
      let sessions ← (fields.lookup "sessions").bind decNat
      let completed ← (fields.lookup "completed").bind decNat
      let totalDuration ← (fields.lookup "totalDuration").bind decNat
      pure ⟨sessions, completed, totalDuration⟩
  | _ => none

/-- Decode a subject bucket. -/
def decSubjectData : JValue → Option SubjectData
  | .obj fields => do
      let sessions ← (fields.lookup "sessions").bind decNat
      let totalDuration ← (fields.lookup "totalDuration").bind decNat
      let completed ← (fields.lookup "completed").bind decNat
      pure ⟨sessions, totalDuration, completed⟩
  | _ => none

/-- Decode an hour-keyed field list of hour buckets. -/
def decHourPairs : List (String × JValue) → Option (List (ℕ × HourData))
  | [] => some []
  | p :: rest => do
      let h ← decHourKey p.1
      let d ← decHourData p.2
      let tail ← decHourPairs rest
      pure ((h, d) :: tail)

/-- Decode a nullable hour-keyed map of hour buckets. -/
def decOptHourMap : JValue → Option (Option (List (ℕ × HourData)))
  | .null => some none
  | .obj fields => (decHourPairs fields).map some
  | _ => none

/-- Decode a nullable subject-keyed map of subject buckets. -/
def decOptSubjectMap : JValue → Option (Option (List (String × SubjectData)))
  | .null => some none
  | .obj fields => (decPairsWith decSubjectData fields).map some
  | _ => none

/-- Decode a mood insight object. -/
def decodeMood : JValue → Option MoodInsights
  | .obj fields => do
      let average ← (fields.lookup "average").bind decNum
      let trend ← (fields.lookup "trend").bind decStr
      let trend_slope ← (fields.lookup "trend_slope").bind decOptJSNum
      let volatility ← (fields.lookup "volatility").bind decNum
      let best_weekday ← (fields.lookup "best_weekday").bind decOptStr
      let worst_weekday ← (fields.lookup "worst_weekday").bind decOptStr
      let weekday_patterns ← (fields.lookup "weekday_patterns").bind decOptNumMap
      pure ⟨average, trend, volatility, trend_slope, best_weekday, worst_weekday,
            weekday_patterns⟩
  | _ => none

/-- Decode a habit insight object. -/
def decodeHabits : JValue → Option HabitInsights
  | .obj fields => do
      let completion_rate ← (fields.lookup "completion_rate").bind decOptNum
      let streaks ← (fields.lookup "streaks").bind decOptNatMap
      let patterns ← (fields.lookup "patterns").bind decOptNumMap
      let overall ← (fields.lookup "overall_completion_rate").bind decOptNum
      let individual ←
        (fields.lookup "individual_completion_rates").bind decOptNumMap
      let current_streaks ← (fields.lookup "current_streaks").bind decOptNatMap
      let most_consistent ← (fields.lookup "most_consistent_habit").bind decOptStr
      let needs ← (fields.lookup "needs_attention").bind decOptStr
      pure ⟨completion_rate, streaks, patterns, overall, individual,
            current_streaks, most_consistent, needs⟩
  | _ => none

/-- Decode a study insight object. -/
def decodeStudy : JValue → Option StudyInsights
  | .obj fields => do
      let total_sessions ← (fields.lookup "total_sessions").bind decNat
      let avg_duration ← (fields.lookup "avg_duration").bind decNum
      let efficiency ← (fields.lookup "efficiency").bind decOptNum
      let total_minutes ← (fields.lookup "total_minutes").bind decOptNat
      let completion_rate ← (fields.lookup "completion_rate").bind decOptNum
      let best_study_hour ← (fields.lookup "best_study_hour").bind decOptNat
      let hourly_patterns ← (fields.lookup "hourly_patterns").bind decOptHourMap
      let subject_performance ←
        (fields.lookup "subject_performance").bind decOptSubjectMap
      pure ⟨total_sessions, avg_duration, efficiency, total_minutes,
            completion_rate, best_study_hour, hourly_patterns, subject_performance⟩
  | _ => none

/-- Decode a nullable insight section. -/
def decSection {α : Type} (d : JValue → Option α) : JValue → Option (Option α)
  | .null => some none
  | v => (d v).map some

/-- Decode the whole report: the inverse reading of `encodeReport`, modelling
`JSON.parse` on the structured export. -/
def decodeReport : JValue → Option Report
  | .obj fields => do
      let user_id ← (fields.lookup "user_id").bind decStr
      let period ← (fields.lookup "analysis_period").bind (fun v =>
        match v with
        | .obj pf => do
            let days ← (pf.lookup "days").bind decNat
            let start_date ← (pf.lookup "start_date").bind decStr
            let end_date ← (pf.lookup "end_date").bind decStr
            pure (⟨days, start_date, end_date⟩ : AnalysisPeriod)
        | _ => none)
      let insights ← (fields.lookup "insights").bind (fun v =>
        match v with
        | .obj inf => do
            let mood ← (inf.lookup "mood").bind (decSection decodeMood)
            let habits ← (inf.lookup "habits").bind (decSection decodeHabits)
            let study ← (inf.lookup "study").bind (decSection decodeStudy)
            pure (⟨mood, habits, study⟩ : Insights)
        | _ => none)
      let recommendations ← (fields.lookup "recommendations").bind decStrList
      let generated_at ← (fields.lookup "generated_at").bind decStr
      let data_quality ← (fields.lookup "data_quality").bind (fun v =>
        match v with
        | .obj qf => do
            let mood_entries ← (qf.lookup "mood_entries").bind decNat
            let habit_entries ← (qf.lookup "habit_entries").bind decNat
            let study_entries ← (qf.lookup "study_entries").bind decNat
            let period_entries ← (qf.lookup "period_entries").bind decNat
            pure (⟨mood_entries, habit_entries, study_entries, period_entries⟩ :
              DataQuality)
        | _ => none)
      pure ⟨user_id, period, insights, recommendations, generated_at, data_quality⟩
  | _ => none

/-! ## Specification-side definitions

These restate the quantities the specification describes in its own terms
(plain list sums, the least-squares formula, the real square root), to be
compared with the source-shaped definitions above. -/

/-- Arithmetic mean of a value series (spec §4.1). -/
def listMean (ys : List ℚ) : ℚ := ys.sum / (ys.length : ℚ)

/-- Population variance: sum of squared deviations divided by `n` (spec §4.1). -/
def popVariance (ys : List ℚ) : ℚ :=
  ((ys.map (fun y => (y - listMean ys) ^ 2)).sum) / (ys.length : ℚ)

/-- `Math.round` over the reals. -/
noncomputable def jsRoundReal (x : ℝ) : ℤ := ⌊x + 1 / 2⌋

/-- Population standard deviation rounded to 2 decimal places (spec §4.1),
with a genuine real square root. -/
noncomputable def popStdDevRound2 (ys : List ℚ) : ℝ :=
  (jsRoundReal (Real.sqrt (popVariance ys) * 100) : ℝ) / 100

/-- Ordinary least-squares slope of a value series against its 0-based index:
`(n·Σxy − Σx·Σy) / (n·Σx² − (Σx)²)` (spec §4.1). -/
def olsSlope (ys : List ℚ) : ℚ :=
  let n : ℚ := ys.length
  let xs : List ℚ := (List.range ys.length).map (fun i : ℕ => (i : ℚ))
  let sumX := xs.sum
  let sumY := ys.sum
  let sumXY := ((xs.zip ys).map (fun p => p.1 * p.2)).sum
  let sumXX := (xs.map (fun x => x * x)).sum
  (n * sumXY - sumX * sumY) / (n * sumXX - sumX * sumX)

/-- A left fold accumulating `f` over a list is the sum of the mapped list. -/
theorem foldl_add_map {α : Type} (f : α → ℚ) :
    ∀ (l : List α) (a : ℚ), l.foldl (fun sum e => sum + f e) a = a + (l.map f).sum := by
  intro l
  induction l with
  | nil => intro a; simp
  | cons e l ih => intro a; simp [ih]; ring

/-- `sqrtRound2` agrees with the two-decimal rounding of the real square
root: the rational computation is exactly `Math.round(Math.sqrt v * 100)/100`. -/
theorem sqrtRound2_eq_real (v : ℚ) (hv : 0 ≤ v) :
    ((sqrtRound2 v : ℚ) : ℝ) = ((⌊Real.sqrt (v : ℝ) * 100 + 1 / 2⌋ : ℤ) : ℝ) / 100 := by
  have h40 : (0 : ℚ) ≤ 40000 * v := by positivity
  have h40R : (0 : ℝ) ≤ 40000 * (v : ℝ) := by positivity
  set a : ℕ := (⌊(40000 : ℚ) * v⌋).toNat with ha
  set s : ℕ := Nat.sqrt a with hs
  have hto : ((a : ℤ)) = ⌊(40000 : ℚ) * v⌋ := by
    rw [ha]; exact Int.toNat_of_nonneg (Int.floor_nonneg.mpr h40)
  have hAq : ((a : ℚ)) ≤ 40000 * v := by
    have := Int.floor_le ((40000 : ℚ) * v)
    rw [← hto] at this; exact_mod_cast this
  have hAq' : (40000 : ℚ) * v < (a : ℚ) + 1 := by
    have := Int.lt_floor_add_one ((40000 : ℚ) * v)
    rw [← hto] at this; exact_mod_cast this
  have hA : ((a : ℝ)) ≤ 40000 * (v : ℝ) := by exact_mod_cast hAq
  have hA' : 40000 * (v : ℝ) < (a : ℝ) + 1 := by exact_mod_cast hAq'
  have hs1 : ((s : ℝ)) ^ 2 ≤ 40000 * (v : ℝ) := by
    have h1 : s ^ 2 ≤ a := by rw [hs]; exact Nat.sqrt_le' a
    calc ((s : ℝ)) ^ 2 = ((s ^ 2 : ℕ) : ℝ) := by push_cast; ring
      _ ≤ (a : ℝ) := by exact_mod_cast h1
      _ ≤ _ := hA
  have hs2 : 40000 * (v : ℝ) < ((s : ℝ) + 1) ^ 2 := by
    have h2 : a < (s + 1) * (s + 1) := by rw [hs]; exact Nat.lt_succ_sqrt a
    have h3 : (a : ℝ) + 1 ≤ ((s : ℝ) + 1) ^ 2 := by
      have h4 : a + 1 ≤ (s + 1) * (s + 1) := h2
      calc (a : ℝ) + 1 = ((a + 1 : ℕ) : ℝ) := by push_cast; ring
        _ ≤ (((s + 1) * (s + 1) : ℕ) : ℝ) := by exact_mod_cast h4
        _ = ((s : ℝ) + 1) ^ 2 := by push_cast; ring
    linarith
  have hrle : (s : ℝ) ≤ Real.sqrt (40000 * (v : ℝ)) :=
    (Real.le_sqrt (by positivity) h40R).mpr hs1
  have hrlt : Real.sqrt (40000 * (v : ℝ)) < (s : ℝ) + 1 :=
    (Real.sqrt_lt' (by positivity)).mpr hs2
  have hsqrt : Real.sqrt (40000 * (v : ℝ)) = 200 * Real.sqrt (v : ℝ) := by
    rw [show (40000 : ℝ) * (v : ℝ) = 200 ^ 2 * (v : ℝ) by norm_num,
        Real.sqrt_mul (by positivity), Real.sqrt_sq (by norm_num)]
  have h200 : Real.sqrt (v : ℝ) * 100 = Real.sqrt (40000 * (v : ℝ)) / 2 := by
    rw [hsqrt]; ring
  have hk2 : 2 * ((s + 1) / 2) = s + 1 ∨ 2 * ((s + 1) / 2) = s := by omega
  have hX : (2 : ℝ) * (((s + 1) / 2 : ℕ) : ℝ) = (s : ℝ) + 1 ∨
      (2 : ℝ) * (((s + 1) / 2 : ℕ) : ℝ) = (s : ℝ) := by
    rcases hk2 with h | h
    · left; exact_mod_cast h
    · right; exact_mod_cast h
  have hfloor : ⌊Real.sqrt (v : ℚ) * 100 + 1 / 2⌋ = (((s + 1) / 2 : ℕ) : ℤ) := by
    rw [Int.floor_eq_iff, Int.cast_natCast]
    constructor
    · rw [h200]
      rcases hX with h | h <;> linarith
    · rw [h200]
      rcases hX with h | h <;> linarith
  simp only [sqrtRound2, ← ha, ← hs]
  rw [hfloor, Int.cast_natCast]
  push_cast
  ring

/-- Mapping a function of the first component over a zip is mapping over the
first list, when the first list is not longer. -/
theorem map_fst_zip_fun {α β γ : Type} (g : α → γ) (l₁ : List α) (l₂ : List β)
    (h : l₁.length ≤ l₂.length) :
    (l₁.zip l₂).map (fun p => g p.1) = l₁.map g := by
  have h2 : (l₁.zip l₂).map (fun p => g p.1) = ((l₁.zip l₂).map Prod.fst).map g := by
    rw [List.map_map]; rfl
  rw [h2, List.map_fst_zip l₁ l₂ h]

/-- The value series the mood calculator extracts from its entries. -/
def moodLevels (moodData : List MoodEntry) : List ℚ :=
  moodData.map (fun e => e.mood_level)

/-- Gauss sum of the 0-based indices, over the rationals. -/
theorem sum_range_cast (n : ℕ) :
    ((List.range n).map (fun i : ℕ => (i : ℚ))).sum = (n : ℚ) * ((n : ℚ) - 1) / 2 := by
  induction n with
  | zero => simp
  | succ n ih =>
    rw [List.range_succ, List.map_append, List.sum_append, ih]
    simp only [List.map_cons, List.map_nil, List.sum_cons, List.sum_nil]
    push_cast
    ring

/-- Sum of squared 0-based indices, over the rationals. -/
theorem sum_range_sq_cast (n : ℕ) :
    ((List.range n).map (fun i : ℕ => (i : ℚ) * (i : ℚ))).sum =
      (n : ℚ) * ((n : ℚ) - 1) * (2 * (n : ℚ) - 1) / 6 := by
  induction n with
  | zero => simp
  | succ n ih =>
    rw [List.range_succ, List.map_append, List.sum_append, ih]
    simp only [List.map_cons, List.map_nil, List.sum_cons, List.sum_nil]
    push_cast
    ring

/-- The least-squares denominator `n·Σx² − (Σx)²` over indices 0,…,n−1 is
`n²(n−1)(n+1)/12`, strictly positive for n ≥ 2 — so the slope division is
genuine there, and degenerate (NaN) exactly at n ≤ 1. -/
theorem olsDenom_pos (n : ℕ) (h2 : 2 ≤ n) :
    0 < (n : ℚ) * ((List.range n).map (fun i : ℕ => (i : ℚ) * (i : ℚ))).sum -
      ((List.range n).map (fun i : ℕ => (i : ℚ))).sum *
        ((List.range n).map (fun i : ℕ => (i : ℚ))).sum := by
  rw [sum_range_cast, sum_range_sq_cast]
  have hm : (2 : ℚ) ≤ (n : ℚ) := by exact_mod_cast h2
  have key : (n : ℚ) * ((n : ℚ) * ((n : ℚ) - 1) * (2 * (n : ℚ) - 1) / 6) -
      (n : ℚ) * ((n : ℚ) - 1) / 2 * ((n : ℚ) * ((n : ℚ) - 1) / 2) =
      (n : ℚ) * (n : ℚ) * ((n : ℚ) - 1) * ((n : ℚ) + 1) / 12 := by ring
  rw [key]
  have h1 : 0 < (n : ℚ) := by linarith
  have hgap : 0 < (n : ℚ) - 1 := by linarith
  have hup : 0 < (n : ℚ) + 1 := by linarith
  exact div_pos (mul_pos (mul_pos (mul_pos h1 h1) hgap) hup) (by norm_num)

/-- `calculateTrend` on the index/value pairs the mood calculator builds is
exactly the least-squares formula of the specification, whenever at least two
points make the denominator nonzero. -/
theorem calculateTrend_enum (l : List MoodEntry) (h2 : 2 ≤ l.length) :
    calculateTrend (l.enum.map (fun p => ((p.1 : ℚ), p.2.mood_level))) =
      JSNum.num (olsSlope (moodLevels l)) := by
  have lA : l.enum.map (fun p => ((p.1 : ℚ))) =
      (List.range l.length).map (fun i : ℕ => (i : ℚ)) := by
    rw [← List.enum_map_fst l, List.map_map]; rfl
  have lB : l.map (fun e => e.mood_level) = l.enum.map (fun p => p.2.mood_level) := by
    conv_lhs => rw [← List.enum_map_snd l]
    rw [List.map_map]
    rfl
  have lD : (List.range l.length).map (fun i : ℕ => (i : ℚ) * (i : ℚ)) =
      l.enum.map (fun p => ((p.1 : ℚ)) * ((p.1 : ℚ))) := by
    conv_lhs => rw [← List.enum_map_fst l]
    rw [List.map_map]
    rfl
  have lC : (((List.range l.length).map (fun i : ℕ => (i : ℚ))).zip
        (l.map (fun e => e.mood_level))).map (fun p => p.1 * p.2) =
      l.enum.map (fun p => ((p.1 : ℚ)) * p.2.mood_level) := by
    rw [List.zip_map, ← List.enum_eq_zip_range, List.map_map]
    rfl
  have hden := olsDenom_pos l.length h2
  rw [lD, ← lA] at hden
  simp only [calculateTrend, olsSlope, moodLevels, jsDiv, foldl_add_map, zero_add,
    List.map_map, Function.comp_def, List.length_map, List.enum_length]
  rw [lC, lD, ← lA, lB]
  rw [if_neg hden.ne']

/-- On non-empty input the stored mood average is the rounded arithmetic mean. -/
theorem calculateMoodInsights_average (l : List MoodEntry) (h : l ≠ []) :
    (calculateMoodInsights l).average =
      (jsRound (listMean (moodLevels l) * 100) : ℚ) / 100 := by
  have he : l.isEmpty = false := by simp [List.isEmpty_iff, h]
  simp only [calculateMoodInsights, he, Bool.false_eq_true, if_false, listMean,
    moodLevels, foldl_add_map, zero_add, List.length_map]

/-- With at least two entries the stored trend slope is the rounded
least-squares slope of the mood levels against their 0-based index. -/
theorem calculateMoodInsights_slope (l : List MoodEntry) (h2 : 2 ≤ l.length) :
    (calculateMoodInsights l).trend_slope =
      some (JSNum.num ((jsRound (olsSlope (moodLevels l) * 10000) : ℚ) / 10000)) := by
  have hne : l ≠ [] := by
    intro h
    rw [h] at h2
    simp at h2
  have he : l.isEmpty = false := by simp [List.isEmpty_iff, hne]
  simp only [calculateMoodInsights, he, Bool.false_eq_true, if_false,
    calculateTrend_enum l h2, roundSlope4]

/-- On a single-entry series the stored trend slope is NaN: the source calls
`calculateTrend` unguarded and 0/0 is NaN. -/
theorem calculateMoodInsights_slope_single (l : List MoodEntry)
    (h1 : l.length = 1) :
    (calculateMoodInsights l).trend_slope = some JSNum.nan := by
  obtain ⟨e, rfl⟩ : ∃ e, l = [e] := by
    cases l with
    | nil => simp at h1
    | cons e t =>
      cases t with
      | nil => exact ⟨e, rfl⟩
      | cons f t => simp at h1
  simp [calculateMoodInsights, calculateTrend, jsDiv, roundSlope4]

/-- With at least two entries the trend label thresholds the unrounded slope
at ±0.05. -/
theorem calculateMoodInsights_trend (l : List MoodEntry) (h2 : 2 ≤ l.length) :
    (calculateMoodInsights l).trend =
      (if olsSlope (moodLevels l) > 0.05 then "improving"
       else if olsSlope (moodLevels l) < -0.05 then "declining" else "stable") := by
  have hne : l ≠ [] := by
    intro h
    rw [h] at h2
    simp at h2
  have he : l.isEmpty = false := by simp [List.isEmpty_iff, hne]
  simp only [calculateMoodInsights, he, Bool.false_eq_true, if_false,
    calculateTrend_enum l h2, JSNum.gt, JSNum.lt]
  by_cases ha : olsSlope (moodLevels l) > 0.05
  · simp [ha]
  · by_cases hb : olsSlope (moodLevels l) < -0.05
    · simp [ha, hb]
    · simp [ha, hb]

/-- On non-empty input the stored volatility is `sqrtRound2` of the population
variance of the mood levels. -/
theorem calculateMoodInsights_volatility (l : List MoodEntry) (h : l ≠ []) :
    (calculateMoodInsights l).volatility = sqrtRound2 (popVariance (moodLevels l)) := by
  have he : l.isEmpty = false := by simp [List.isEmpty_iff, h]
  simp only [calculateMoodInsights, he, Bool.false_eq_true, if_false, popVariance,
    listMean, moodLevels, foldl_add_map, zero_add, List.length_map, List.map_map,
    Function.comp_def]

/-- Spec-side total completed quantity over all habit entries. -/
def habitTotalCompleted (data : List HabitEntry) : ℚ :=
  (data.map (fun h => (h.completed : ℚ))).sum

/-- Spec-side total target quantity over all habit entries. -/
def habitTotalTarget (data : List HabitEntry) : ℚ :=
  (data.map (fun h => (h.target : ℚ))).sum

/-- On non-empty input the stored overall completion rate is the rounded
quantity-weighted rate, with the divide-by-zero guard. -/
theorem analyzeHabitPatterns_overall (data : List HabitEntry) (h : data ≠ []) :
    (analyzeHabitPatterns data).overall_completion_rate =
      some ((jsRound ((if habitTotalTarget data > 0 then
          habitTotalCompleted data / habitTotalTarget data else 0) * 1000) : ℚ) / 1000) := by
  have he : data.isEmpty = false := by simp [List.isEmpty_iff, h]
  simp only [analyzeHabitPatterns, he, Bool.false_eq_true, if_false,
    habitTotalCompleted, habitTotalTarget, foldl_add_map, zero_add]

/-- On non-empty input the streak map records, for each habit group, the
backward-walk streak of its date-sorted entries. -/
theorem analyzeHabitPatterns_streaks (data : List HabitEntry) (h : data ≠ []) :
    (analyzeHabitPatterns data).current_streaks =
      some ((habitGroups data).map (fun p => (p.1, currentStreak (sortByDate p.2)))) := by
  have he : data.isEmpty = false := by simp [List.isEmpty_iff, h]
  simp only [analyzeHabitPatterns, he, Bool.false_eq_true, if_false]

/-- Every element of `takeWhile` satisfies the predicate. -/
theorem length_takeWhile_le1 {α : Type} (q : α → Bool) (l : List α) :
    (l.takeWhile q).length ≤ l.length := by
  induction l with
  | nil => simp
  | cons x xs ih =>
    cases hx : q x
    · simp [List.takeWhile_cons, hx]
    · simpa [List.takeWhile_cons, hx] using Nat.succ_le_succ ih

/-- `takeWhile` is the prefix of its own length. -/
theorem take_length_takeWhile {α : Type} (q : α → Bool) (l : List α) :
    l.take (l.takeWhile q).length = l.takeWhile q := by
  induction l with
  | nil => simp
  | cons x xs ih =>
    cases hx : q x
    · simp [List.takeWhile_cons, hx]
    · simp [List.takeWhile_cons, hx, List.take_succ_cons, ih]

/-- `takeWhile` captures every all-satisfying prefix: any `k`-prefix of
satisfying elements forces `k ≤ (takeWhile q l).length`. -/
theorem le_length_takeWhile {α : Type} (q : α → Bool) (l : List α) :
    ∀ k, k ≤ l.length → (∀ e ∈ l.take k, q e = true) →
      k ≤ (l.takeWhile q).length := by
  induction l with
  | nil => intro k hk _; simpa using hk
  | cons x xs ih =>
    intro k hk hq
    cases k with
    | zero => exact Nat.zero_le _
    | succ k' =>
      have hx : q x = true := hq x (by simp)
      simp only [List.takeWhile_cons, hx, if_true, List.length_cons]
      exact Nat.succ_le_succ
        (ih k' (by simpa using hk) (fun e he => hq e (by simp [he])))

/-- The trailing `k` elements of a list are the reversed `k`-prefix of its
reverse. -/
theorem drop_eq_reverse_take {α : Type} (l : List α) (k : ℕ) :
    l.drop (l.length - k) = (l.reverse.take k).reverse := by
  rw [List.reverse_take]
  simp

/-- Specification of the streak (spec §4.2): `k` is the length of the maximal
trailing run of entries with `completed ≥ target`, in date-ascending order. -/
def IsMaxTrailingRun (l : List HabitEntry) (k : ℕ) : Prop :=
  k ≤ l.length ∧ (∀ e ∈ l.drop (l.length - k), meetsTarget e = true) ∧
    ∀ j, j ≤ l.length → (∀ e ∈ l.drop (l.length - j), meetsTarget e = true) → j ≤ k

/-- The backward streak walk computes exactly the maximal trailing run. -/
theorem currentStreak_isMaxTrailingRun (l : List HabitEntry) :
    IsMaxTrailingRun l (currentStreak l) := by
  unfold IsMaxTrailingRun currentStreak
  refine ⟨?_, ?_, ?_⟩
  · have h1 := length_takeWhile_le1 meetsTarget l.reverse
    simpa using h1
  · intro e he
    rw [drop_eq_reverse_take, List.mem_reverse, take_length_takeWhile] at he
    exact List.mem_takeWhile_imp he
  · intro j hj hq
    apply le_length_takeWhile meetsTarget l.reverse j (by simpa using hj)
    intro e he
    apply hq
    rw [drop_eq_reverse_take, List.mem_reverse]
    exact he

/-- One bucketing step never empties the bucket map. -/
theorem hourStep_ne_nil (acc : List (ℕ × HourData)) (s : StudySession) :
    hourStep acc s ≠ [] := by
  unfold hourStep updateKey ensureKey
  by_cases hl : (acc.lookup s.getHours).isSome
  · cases acc with
    | nil => simp [List.lookup] at hl
    | cons p rest => simp [hl]
  · simp [hl]

/-- Bucketing a non-empty session list yields a non-empty bucket map. -/
theorem hourlyBuckets_ne_nil (data : List StudySession) (h : data ≠ []) :
    hourlyBuckets data ≠ [] := by
  have haux : ∀ (rest : List StudySession) (acc : List (ℕ × HourData)),
      acc ≠ [] → rest.foldl hourStep acc ≠ [] := by
    intro rest
    induction rest with
    | nil => intro acc hacc; simpa using hacc
    | cons s rest ih =>
      intro acc _
      simpa using ih (hourStep acc s) (hourStep_ne_nil acc s)
  cases data with
  | nil => exact absurd rfl h
  | cons s rest =>
    unfold hourlyBuckets
    simpa using haux rest (hourStep [] s) (hourStep_ne_nil [] s)

/-- A bucketing step over an uncompleted session keeps every bucket's
completed count at zero. -/
theorem hourStep_completed_zero (acc : List (ℕ × HourData)) (s : StudySession)
    (hs : s.completed = false) (hacc : ∀ p ∈ acc, p.2.completed = 0) :
    ∀ p ∈ hourStep acc s, p.2.completed = 0 := by
  intro p hp
  unfold hourStep updateKey at hp
  rw [List.mem_map] at hp
  obtain ⟨p', hp', rfl⟩ := hp
  have hp'' : p' ∈ acc ∨ p' = (s.getHours, (⟨0, 0, 0⟩ : HourData)) := by
    unfold ensureKey at hp'
    by_cases hl : (acc.lookup s.getHours).isSome
    · rw [if_pos hl] at hp'; exact Or.inl hp'
    · rw [if_neg hl] at hp'
      rcases List.mem_append.mp hp' with h | h
      · exact Or.inl h
      · right; simpa using h
  have hz : p'.2.completed = 0 := by
    rcases hp'' with h | h
    · exact hacc p' h
    · rw [h]
  by_cases hk : (p'.1 == s.getHours) = true
  · rw [if_pos hk]; simp [hs, hz]
  · rw [if_neg hk]; exact hz

/-- If no session is completed, every hour bucket has completed count 0. -/
theorem hourlyBuckets_completed_zero (data : List StudySession)
    (hall : ∀ s ∈ data, s.completed = false) :
    ∀ p ∈ hourlyBuckets data, p.2.completed = 0 := by
  have haux : ∀ (rest : List StudySession) (acc : List (ℕ × HourData)),
      (∀ s ∈ rest, s.completed = false) → (∀ p ∈ acc, p.2.completed = 0) →
      ∀ p ∈ rest.foldl hourStep acc, p.2.completed = 0 := by
    intro rest
    induction rest with
    | nil => intro acc _ hacc; simpa using hacc
    | cons s rest ih =>
      intro acc hrest hacc
      simp only [List.foldl_cons]
      exact ih (hourStep acc s) (fun t ht => hrest t (by simp [ht]))
        (hourStep_completed_zero acc s (hrest s (by simp)) hacc)
  exact haux data [] hall (by simp)

/-- The best-hour loop never selects an hour whose buckets all have
completed count 0: every ratio is 0, never exceeding the starting 0. -/
theorem bestStudyHour_eq_none (hp : List (ℕ × HourData))
    (h0 : ∀ p ∈ hp, p.2.completed = 0) : bestStudyHour hp = none := by
  unfold bestStudyHour
  have haux : ∀ (l : List (ℕ × HourData)), (∀ p ∈ l, p.2.completed = 0) →
      l.foldl (fun best p =>
        let rate : ℚ := (p.2.completed : ℚ) / (p.2.sessions : ℚ)
        if rate > best.2 then (some p.1, rate) else best)
        ((none : Option ℕ), (0 : ℚ)) = (none, 0) := by
    intro l
    induction l with
    | nil => intro _; rfl
    | cons p rest ih =>
      intro hl
      have hp0 : p.2.completed = 0 := hl p (by simp)
      simp only [List.foldl_cons, hp0]
      rw [if_neg (by simp : ¬ (((0 : ℕ) : ℚ) / (p.2.sessions : ℚ) > (0 : ℚ)))]
      exact ih (fun q hq => hl q (by simp [hq]))
  rw [haux hp h0]

/-- Decoding inverts encoding for nullable numbers. -/
theorem decOptNum_enc (o : Option ℚ) : decOptNum (encOptNum o) = some o := by
  cases o <;> rfl

/-- Decoding inverts encoding for nullable strings. -/
theorem decOptStr_enc (o : Option String) : decOptStr (encOptStr o) = some o := by
  cases o <;> rfl

/-- Decoding inverts encoding for counts. -/
theorem decNat_enc (n : ℕ) : decNat (.num (n : ℚ)) = some n := by
  simp [decNat, Rat.den_natCast, Rat.num_natCast, Int.toNat_natCast]

/-- Decoding inverts encoding for nullable counts. -/
theorem decOptNat_enc (o : Option ℕ) : decOptNat (encOptNat o) = some o := by
  cases o with
  | none => rfl
  | some n => simp [encOptNat, decOptNat, decNat_enc]

/-- Decoding inverts encoding valuewise over a keyed field list. -/
theorem decPairsWith_enc {β : Type} (d : JValue → Option β) (enc : β → JValue)
    (hd : ∀ b, d (enc b) = some b) :
    ∀ l : List (String × β),
      decPairsWith d (l.map (fun p => (p.1, enc p.2))) = some l := by
  intro l
  induction l with
  | nil => rfl
  | cons p rest ih => simp [decPairsWith, hd, ih]

/-- Decoding inverts encoding for string-keyed number maps. -/
theorem decNumMap_enc (l : List (String × ℚ)) :
    decNumMap (encNumMap l) = some l := by
  simpa [encNumMap, decNumMap] using
    decPairsWith_enc decNum .num (fun b => rfl) l

/-- Decoding inverts encoding for string-keyed count maps. -/
theorem decNatMap_enc (l : List (String × ℕ)) :
    decNatMap (encNatMap l) = some l := by
  simpa [encNatMap, decNatMap] using
    decPairsWith_enc decNat (fun n => .num (n : ℚ)) decNat_enc l

/-- Decoding inverts encoding for string lists. -/
theorem decStrs_enc (l : List String) : decStrs (l.map .str) = some l := by
  induction l with
  | nil => rfl
  | cons s rest ih => simp [decStrs, decStr, ih]

/-- Stringified hours below 24 decode back to themselves. -/
theorem decHourKey_enc : ∀ h : ℕ, h < 24 → decHourKey (toString h) = some h := by
  decide

/-- Decoding inverts encoding for hour buckets. -/
theorem decHourData_enc (d : HourData) : decHourData (encodeHourData d) = some d := by
  cases d
  simp [encodeHourData, decHourData, decNat_enc, List.lookup]

/-- Decoding inverts encoding for subject buckets. -/
theorem decSubjectData_enc (d : SubjectData) :
    decSubjectData (encodeSubjectData d) = some d := by
  cases d
  simp [encodeSubjectData, decSubjectData, decNat_enc, List.lookup]

/-- Decoding inverts encoding for hour-keyed bucket maps whose hours are
genuine hours of day. -/
theorem decHourPairs_enc (l : List (ℕ × HourData)) (hl : ∀ p ∈ l, p.1 < 24) :
    decHourPairs (l.map (fun p => (toString p.1, encodeHourData p.2))) = some l := by
  induction l with
  | nil => rfl
  | cons p rest ih =>
    have h24 : p.1 < 24 := hl p (by simp)
    simp [decHourPairs, decHourKey_enc p.1 h24, decHourData_enc,
      ih (fun q hq => hl q (by simp [hq]))]

/-- Instantiated pairwise roundtrips, in the unfolded shape simp meets. -/
theorem decPairsWithNum_enc (l : List (String × ℚ)) :
    decPairsWith decNum (l.map (fun p => (p.1, JValue.num p.2))) = some l :=
  decPairsWith_enc decNum .num (fun _ => rfl) l

/-- Count-map version of `decPairsWithNum_enc`. -/
theorem decPairsWithNat_enc (l : List (String × ℕ)) :
    decPairsWith decNat (l.map (fun p => (p.1, JValue.num (p.2 : ℚ)))) = some l :=
  decPairsWith_enc decNat (fun n => .num (n : ℚ)) decNat_enc l

/-- Decoding inverts encoding for a NaN-free nullable number; a stored NaN
is serialized as null and does **not** decode back to itself. -/
theorem decOptJSNum_enc (o : Option JSNum) (h : o ≠ some JSNum.nan) :
    decOptJSNum (encOptJSNum o) = some o := by
  cases o with
  | none => rfl
  | some a =>
    cases a with
    | nan => exact absurd rfl h
    | num q => rfl

/-- Decoding inverts encoding for mood insight objects that store no NaN. -/
theorem decodeMood_enc (m : MoodInsights)
    (hnan : m.trend_slope ≠ some JSNum.nan) :
    decodeMood (encodeMood m) = some m := by
  obtain ⟨average, trend, volatility, trend_slope, best_weekday, worst_weekday,
    wp⟩ := m
  simp only at hnan
  have hts := decOptJSNum_enc trend_slope hnan
  cases wp with
  | none =>
    simp [encodeMood, decodeMood, List.lookup, hts, decOptStr_enc,
      decOptNumMap, decNum, decStr]
  | some l =>
    simp [encodeMood, decodeMood, List.lookup, hts, decOptStr_enc,
      decOptNumMap, decNum, decStr, encNumMap, decNumMap, decPairsWithNum_enc]

/-- Decoding inverts encoding for habit insight objects. -/
theorem decodeHabits_enc (h : HabitInsights) : decodeHabits (encodeHabits h) = some h := by
  cases h with
  | mk completion_rate streaks patterns overall individual current most needs =>
    cases streaks <;> cases patterns <;> cases individual <;> cases current <;>
      simp [encodeHabits, decodeHabits, List.lookup, decOptNum_enc, decOptStr_enc,
        decOptNumMap, decOptNatMap, encNumMap, encNatMap, decNumMap, decNatMap,
        decPairsWithNum_enc, decPairsWithNat_enc]

/-- Decoding inverts encoding for study insight objects with genuine hour
keys. -/
theorem decodeStudy_enc (st : StudyInsights)
    (h24 : ∀ hp, st.hourly_patterns = some hp → ∀ p ∈ hp, p.1 < 24) :
    decodeStudy (encodeStudy st) = some st := by
  cases st with
  | mk total_sessions avg_duration efficiency total_minutes completion_rate
      best_study_hour hourly_patterns subject_performance =>
    cases hourly_patterns with
    | none =>
      cases subject_performance with
      | none =>
        simp [encodeStudy, decodeStudy, List.lookup, decNat_enc, decNum,
          decOptNum_enc, decOptNat_enc, decOptHourMap, decOptSubjectMap]
      | some sp =>
        simp [encodeStudy, decodeStudy, List.lookup, decNat_enc, decNum,
          decOptNum_enc, decOptNat_enc, decOptHourMap, decOptSubjectMap,
          decPairsWith_enc decSubjectData encodeSubjectData decSubjectData_enc]
    | some hp =>
      have hhp : ∀ p ∈ hp, p.1 < 24 := h24 hp rfl
      cases subject_performance with
      | none =>
        simp [encodeStudy, decodeStudy, List.lookup, decNat_enc, decNum,
          decOptNum_enc, decOptNat_enc, decOptHourMap, decOptSubjectMap,
          decHourPairs_enc hp hhp]
      | some sp =>
        simp [encodeStudy, decodeStudy, List.lookup, decNat_enc, decNum,
          decOptNum_enc, decOptNat_enc, decOptHourMap, decOptSubjectMap,
          decHourPairs_enc hp hhp,
          decPairsWith_enc decSubjectData encodeSubjectData decSubjectData_enc]

/-- Hour keys of a report are genuine hours of day (0–23).  This holds for
every report the engine assembles, since `getHours` is a value modulo 24. -/
def Report.hoursValid (r : Report) : Prop :=
  ∀ st, r.insights.study = some st →
    ∀ hp, st.hourly_patterns = some hp → ∀ p ∈ hp, p.1 < 24

/-- `decSection` inverts the mood encoder on NaN-free mood insights. -/
theorem decSection_mood (m : MoodInsights)
    (hnan : m.trend_slope ≠ some JSNum.nan) :
    decSection decodeMood (encodeMood m) = some (some m) := by
  have h : decSection decodeMood (encodeMood m) =
      (decodeMood (encodeMood m)).map some := rfl
  rw [h, decodeMood_enc m hnan]
  rfl

/-- `decSection` inverts the habit encoder. -/
theorem decSection_habits (h : HabitInsights) :
    decSection decodeHabits (encodeHabits h) = some (some h) := by
  have h1 : decSection decodeHabits (encodeHabits h) =
      (decodeHabits (encodeHabits h)).map some := rfl
  rw [h1, decodeHabits_enc]
  rfl

/-- `decSection` inverts the study encoder when hour keys are genuine. -/
theorem decSection_study (st : StudyInsights)
    (h24 : ∀ hp, st.hourly_patterns = some hp → ∀ p ∈ hp, p.1 < 24) :
    decSection decodeStudy (encodeStudy st) = some (some st) := by
  have h1 : decSection decodeStudy (encodeStudy st) =
      (decodeStudy (encodeStudy st)).map some := rfl
  rw [h1, decodeStudy_enc st h24]
  rfl

/-- `decSection` maps `null` to an absent section. -/
theorem decSection_null {α : Type} (d : JValue → Option α) :
    decSection d .null = some none := rfl

/-- The report stores no NaN: the mood trend slope — the only NaN-able
field — is a genuine number wherever present.  Every assembled report whose
mood series is not a single entry satisfies this
(`createWellnessReport_nanFree`). -/
def Report.nanFree (r : Report) : Prop :=
  ∀ m, r.insights.mood = some m → m.trend_slope ≠ some JSNum.nan

/-- Decoding inverts encoding for whole NaN-free reports with genuine hour
keys. -/
theorem decodeReport_enc (r : Report) (h24 : r.hoursValid) (hnan : r.nanFree) :
    decodeReport (encodeReport r) = some r := by
  obtain ⟨user_id, ⟨days, start_date, end_date⟩, ⟨mood, habits, study⟩, recs,
    generated_at, ⟨q1, q2, q3, q4⟩⟩ := r
  have h24' : ∀ st, study = some st →
      ∀ hp, st.hourly_patterns = some hp → ∀ p ∈ hp, p.1 < 24 :=
    fun st hst hp hhp => h24 st hst hp hhp
  have hnan' : ∀ m, mood = some m → m.trend_slope ≠ some JSNum.nan :=
    fun m hm => hnan m hm
  clear h24 hnan
  cases study with
  | none =>
    cases mood with
    | none =>
      cases habits <;>
        simp [encodeReport, decodeReport, List.lookup, decStr, decNat_enc,
          decStrList, decStrs_enc, decSection_null, decSection_habits]
    | some m =>
      have hm := decSection_mood m (hnan' m rfl)
      cases habits <;>
        simp [encodeReport, decodeReport, List.lookup, decStr, decNat_enc,
          decStrList, decStrs_enc, decSection_null, decSection_habits, hm]
  | some st =>
    have hst := decSection_study st (h24' st rfl)
    cases mood with
    | none =>
      cases habits <;>
        simp [encodeReport, decodeReport, List.lookup, decStr, decNat_enc,
          decStrList, decStrs_enc, decSection_null, decSection_habits, hst]
    | some m =>
      have hm := decSection_mood m (hnan' m rfl)
      cases habits <;>
        simp [encodeReport, decodeReport, List.lookup, decStr, decNat_enc,
          decStrList, decStrs_enc, decSection_null, decSection_habits, hst, hm]

/-! ## Concrete fixtures -/

/-- A mood entry with the given day and level (energy and notes fixed). -/
def mkMoodEntry (d : ℕ) (level : ℚ) : MoodEntry := ⟨d, level, 50, "ok"⟩

/-- Mood levels 1,2,3,4,5 on consecutive days. -/
def moodFixture15 : List MoodEntry :=
  [mkMoodEntry 0 1, mkMoodEntry 1 2, mkMoodEntry 2 3, mkMoodEntry 3 4,
   mkMoodEntry 4 5]

/-- Constant mood level 3 on five consecutive days. -/
def moodFixture3s : List MoodEntry :=
  [mkMoodEntry 0 3, mkMoodEntry 1 3, mkMoodEntry 2 3, mkMoodEntry 3 3,
   mkMoodEntry 4 3]

/-- Mood levels 1,1,1,1,1,2: least-squares slope 1/7, not a 4-decimal value. -/
def moodFixtureSeventh : List MoodEntry :=
  [mkMoodEntry 0 1, mkMoodEntry 1 1, mkMoodEntry 2 1, mkMoodEntry 3 1,
   mkMoodEntry 4 1, mkMoodEntry 5 2]

/-- One habit with chronological qualification pattern T,T,F,T,T,T. -/
def habitFixture : List HabitEntry :=
  [⟨"Hydration", 0, 1, 1⟩, ⟨"Hydration", 1, 1, 1⟩, ⟨"Hydration", 2, 0, 1⟩,
   ⟨"Hydration", 3, 1, 1⟩, ⟨"Hydration", 4, 1, 1⟩, ⟨"Hydration", 5, 1, 1⟩]

/-- One habit entry with completed 1 of target 3: quantity rate 1/3. -/
def habitFixtureThird : List HabitEntry := [⟨"Appreciation", 0, 1, 3⟩]

/-- Five sessions at hour 0 of which one completed: hour 0 is the best hour
and the completion rate is 0.2. -/
def studyFixtureHour0 : List StudySession :=
  [⟨"Math", 0, 30, true, 0⟩, ⟨"Math", 0, 30, false, 0⟩,
   ⟨"Math", 0, 30, false, 0⟩, ⟨"Math", 0, 30, false, 0⟩,
   ⟨"Math", 0, 30, false, 0⟩]

/-- The same mix of sessions at hour 10. -/
def studyFixtureHour10 : List StudySession :=
  [⟨"Math", 0, 30, true, 10⟩, ⟨"Math", 0, 30, false, 10⟩,
   ⟨"Math", 0, 30, false, 10⟩, ⟨"Math", 0, 30, false, 10⟩,
   ⟨"Math", 0, 30, false, 10⟩]

/-- An assembled report over the fixtures. -/
def reportFixture : Report :=
  createWellnessReport "user_1" ⟨30, "2026-09-11", "2026-10-11"⟩
    "2026-10-11T00:00:00Z" moodFixture15 habitFixture studyFixtureHour10 []

/-- The fixture report with a single fixed recommendation. -/
def reportFixtureRec : Report :=
  { reportFixture with recommendations := ["Drink more water"] }

/-! ## The claims -/

/-- C1: each calculator returns its defined neutral result on an empty
series — mood: average 0, trend `"no_data"`, volatility 0; habits:
completion rate 0 and empty streak/pattern maps; study: zeroed summary with
no best study hour — and a report assembled from three empty series has an
empty recommendations list. -/
theorem claim_C1_empty_series_neutral :
    calculateMoodInsights [] =
      { average := 0, trend := "no_data", volatility := 0,
        trend_slope := none, best_weekday := none, worst_weekday := none,
        weekday_patterns := none } ∧
    analyzeHabitPatterns [] =
      { completion_rate := some 0, streaks := some [], patterns := some [],
        overall_completion_rate := none, individual_completion_rates := none,
        current_streaks := none, most_consistent_habit := none,
        needs_attention := none } ∧
    analyzeStudyPerformance [] =
      { total_sessions := 0, avg_duration := 0, efficiency := some 0,
        total_minutes := none, completion_rate := none, best_study_hour := none,
        hourly_patterns := none, subject_performance := none } ∧
    ∀ u p g pd, (createWellnessReport u p g [] [] [] pd).recommendations = [] :=
  ⟨rfl, rfl, rfl, fun _ _ _ _ => rfl⟩

/-- C2: for every habit group the recorded current streak is the length of
the maximal trailing run (in date-ascending order) of entries with
`completed ≥ target`, it is 0 whenever the most recent entry fails the
condition, and the chronological qualification pattern T,T,F,T,T,T yields
streak 3. -/
theorem claim_C2_current_streak (data : List HabitEntry) (name : String)
    (group : List HabitEntry) (hmem : (name, group) ∈ habitGroups data)
    (hne : data ≠ []) :
    ∃ streaks, (analyzeHabitPatterns data).current_streaks = some streaks ∧
      (name, currentStreak (sortByDate group)) ∈ streaks ∧
      IsMaxTrailingRun (sortByDate group) (currentStreak (sortByDate group)) ∧
      (∀ last rest, (sortByDate group).reverse = last :: rest →
        meetsTarget last = false → currentStreak (sortByDate group) = 0) ∧
      (analyzeHabitPatterns habitFixture).current_streaks =
        some [("Hydration", 3)] := by
  refine ⟨_, analyzeHabitPatterns_streaks data hne, ?_,
    currentStreak_isMaxTrailingRun _, ?_, by decide⟩
  · exact List.mem_map.mpr ⟨(name, group), hmem, rfl⟩
  · intro last rest hrev hfail
    unfold currentStreak
    rw [hrev]
    simp [List.takeWhile_cons, hfail]

/-- Witness for C2 at the T,T,F,T,T,T fixture. -/
theorem claim_C2_witness :
    ∃ streaks,
      (analyzeHabitPatterns habitFixture).current_streaks = some streaks ∧
      ("Hydration", currentStreak (sortByDate habitFixture)) ∈ streaks ∧
      IsMaxTrailingRun (sortByDate habitFixture)
        (currentStreak (sortByDate habitFixture)) ∧
      (∀ last rest, (sortByDate habitFixture).reverse = last :: rest →
        meetsTarget last = false →
        currentStreak (sortByDate habitFixture) = 0) ∧
      (analyzeHabitPatterns habitFixture).current_streaks =
        some [("Hydration", 3)] :=
  claim_C2_current_streak habitFixture "Hydration" habitFixture (by decide)
    (by decide)

/-- C10: a non-empty study series in which no session is completed yields
`best_study_hour = null` even though hour buckets exist, so a null best hour
does not imply an empty input series. -/
theorem claim_C10_null_best_hour (data : List StudySession) (hne : data ≠ [])
    (hall : ∀ s ∈ data, s.completed = false) :
    (analyzeStudyPerformance data).best_study_hour = none ∧
    ∃ hp, (analyzeStudyPerformance data).hourly_patterns = some hp ∧ hp ≠ [] := by
  have he : data.isEmpty = false := by simp [List.isEmpty_iff, hne]
  constructor
  · simp only [analyzeStudyPerformance, he, Bool.false_eq_true, if_false]
    exact bestStudyHour_eq_none _ (hourlyBuckets_completed_zero data hall)
  · refine ⟨hourlyBuckets data, ?_, hourlyBuckets_ne_nil data hne⟩
    simp only [analyzeStudyPerformance, he, Bool.false_eq_true, if_false]

/-- Witness for C10: one uncompleted session at hour 0. -/
theorem claim_C10_witness :
    (analyzeStudyPerformance [⟨"Math", 0, 30, false, 0⟩]).best_study_hour =
        none ∧
    ∃ hp, (analyzeStudyPerformance [⟨"Math", 0, 30, false, 0⟩]).hourly_patterns =
        some hp ∧ hp ≠ [] :=
  claim_C10_null_best_hour [⟨"Math", 0, 30, false, 0⟩] (by decide) (by decide)

/-- C3 counterexample: for mood levels 1,1,1,1,1,2 the least-squares slope is
1/7, but the stored `trend_slope` is the 4-decimal rounding 0.1429 ≠ 1/7, so
`trend_slope` does not equal the least-squares slope. -/
theorem claim_C3_counterexample :
    olsSlope (moodLevels moodFixtureSeventh) = 1 / 7 ∧
    (calculateMoodInsights moodFixtureSeventh).trend_slope ≠
      some (JSNum.num (olsSlope (moodLevels moodFixtureSeventh))) ∧
    (calculateMoodInsights moodFixtureSeventh).trend_slope =
      some (JSNum.num (1429 / 10000)) := by
  refine ⟨by decide, by decide, by decide⟩

/-- C3 (amended): for n ≥ 2 mood entries, `trend_slope` equals the
least-squares slope of mood level against 0-based index **rounded to 4
decimal places**; the trend label is `"improving"` exactly when the unrounded
slope exceeds 0.05, `"declining"` exactly when it is below −0.05 and
`"stable"` otherwise; and mood levels 1,2,3,4,5 yield slope 1.0 and
`"improving"`. -/
theorem claim_C3_amended (l : List MoodEntry) (h2 : 2 ≤ l.length) :
    (calculateMoodInsights l).trend_slope =
      some (JSNum.num ((jsRound (olsSlope (moodLevels l) * 10000) : ℚ) / 10000)) ∧
    ((calculateMoodInsights l).trend = "improving" ↔
      olsSlope (moodLevels l) > 0.05) ∧
    ((calculateMoodInsights l).trend = "declining" ↔
      olsSlope (moodLevels l) < -0.05) ∧
    ((calculateMoodInsights l).trend = "stable" ↔
      (¬ olsSlope (moodLevels l) > 0.05 ∧ ¬ olsSlope (moodLevels l) < -0.05)) ∧
    olsSlope (moodLevels moodFixture15) = 1 ∧
    (calculateMoodInsights moodFixture15).trend_slope = some (JSNum.num 1) ∧
    (calculateMoodInsights moodFixture15).trend = "improving" := by
  rw [calculateMoodInsights_slope l h2, calculateMoodInsights_trend l h2]
  refine ⟨rfl, ?_, ?_, ?_, by decide, by decide, by decide⟩
  · by_cases ha : olsSlope (moodLevels l) > 0.05
    · simp [ha]
    · by_cases hb : olsSlope (moodLevels l) < -0.05
      · simp [ha, hb]
      · simp [ha, hb]
  · by_cases ha : olsSlope (moodLevels l) > 0.05
    · have hb : ¬ olsSlope (moodLevels l) < -0.05 := by
        intro hb
        have : (-0.05 : ℚ) < 0.05 := by norm_num
        linarith
      simp [ha, hb]
    · by_cases hb : olsSlope (moodLevels l) < -0.05
      · simp [ha, hb]
      · simp [ha, hb]
  · by_cases ha : olsSlope (moodLevels l) > 0.05
    · simp [ha]
    · by_cases hb : olsSlope (moodLevels l) < -0.05
      · simp [ha, hb]
      · simp [ha, hb]

/-- Witness for C3 at the 1..5 fixture. -/
theorem claim_C3_witness :
    (calculateMoodInsights moodFixture15).trend_slope =
      some (JSNum.num
        ((jsRound (olsSlope (moodLevels moodFixture15) * 10000) : ℚ) / 10000)) :=
  (claim_C3_amended moodFixture15 (by decide)).1

/-- C4 counterexample: for one entry with completed 1 of target 3 the
quantity-weighted rate is 1/3, but the stored `overall_completion_rate` is
the 3-decimal rounding 0.333 ≠ 1/3. -/
theorem claim_C4_counterexample :
    habitTotalCompleted habitFixtureThird / habitTotalTarget habitFixtureThird
      = 1 / 3 ∧
    (analyzeHabitPatterns habitFixtureThird).overall_completion_rate ≠
      some (habitTotalCompleted habitFixtureThird /
        habitTotalTarget habitFixtureThird) ∧
    (analyzeHabitPatterns habitFixtureThird).overall_completion_rate =
      some (333 / 1000) := by
  refine ⟨by decide, by decide, by decide⟩

/-- C4 (amended): for every non-empty habit series,
`overall_completion_rate` equals Σcompleted / Σtarget **rounded to 3 decimal
places** (0 when the total target is 0, before rounding), and it lies in
[0, 1] whenever every entry has completed ≤ target. -/
theorem claim_C4_amended (data : List HabitEntry) (hne : data ≠ []) :
    (analyzeHabitPatterns data).overall_completion_rate =
      some ((jsRound ((if habitTotalTarget data > 0 then
        habitTotalCompleted data / habitTotalTarget data else 0) * 1000) : ℚ)
        / 1000) ∧
    (habitTotalTarget data = 0 →
      (analyzeHabitPatterns data).overall_completion_rate = some 0) ∧
    ((∀ e ∈ data, e.completed ≤ e.target) →
      ∀ q, (analyzeHabitPatterns data).overall_completion_rate = some q →
        0 ≤ q ∧ q ≤ 1) := by
  refine ⟨analyzeHabitPatterns_overall data hne, ?_, ?_⟩
  · intro h0
    rw [analyzeHabitPatterns_overall data hne, h0]
    norm_num [jsRound]
  · intro hbound q hq
    rw [analyzeHabitPatterns_overall data hne] at hq
    set x : ℚ := if habitTotalTarget data > 0 then
      habitTotalCompleted data / habitTotalTarget data else 0 with hx
    have hx0 : 0 ≤ x := by
      rw [hx]
      split
      · apply div_nonneg
        · apply List.sum_nonneg
          intro y hy
          rw [List.mem_map] at hy
          obtain ⟨e, _, rfl⟩ := hy
          positivity
        · apply List.sum_nonneg
          intro y hy
          rw [List.mem_map] at hy
          obtain ⟨e, _, rfl⟩ := hy
          positivity
      · exact le_refl 0
    have hx1 : x ≤ 1 := by
      rw [hx]
      split
      · rename_i hT
        rw [div_le_one hT]
        apply List.sum_le_sum
        intro e he
        exact_mod_cast hbound e he
      · norm_num
    have hfl : (0 : ℤ) ≤ jsRound (x * 1000) := by
      unfold jsRound
      have : (0 : ℤ) = ⌊(1 : ℚ) / 2⌋ := by norm_num
      rw [this]
      apply Int.floor_le_floor
      linarith
    have hfu : jsRound (x * 1000) ≤ 1000 := by
      unfold jsRound
      have h1000 : (1000 : ℤ) = ⌊(1000 : ℚ) + 1 / 2⌋ := by norm_num
      rw [h1000]
      apply Int.floor_le_floor
      linarith
    have hq' : q = (jsRound (x * 1000) : ℚ) / 1000 := by
      injection hq with hq''
      exact hq''.symm
    rw [hq']
    constructor
    · apply div_nonneg _ (by norm_num)
      exact_mod_cast hfl
    · rw [div_le_one (by norm_num : (0:ℚ) < 1000)]
      exact_mod_cast hfu

/-- Witness for C4 at the 1-of-3 fixture. -/
theorem claim_C4_witness :
    (analyzeHabitPatterns habitFixtureThird).overall_completion_rate =
      some ((jsRound ((if habitTotalTarget habitFixtureThird > 0 then
        habitTotalCompleted habitFixtureThird / habitTotalTarget habitFixtureThird
        else 0) * 1000) : ℚ) / 1000) :=
  (claim_C4_amended habitFixtureThird (by decide)).1

/-- The mood rules of §4.4 in order: declining trend, then high volatility. -/
def moodSectionRecs : Option MoodInsights → List String
  | none => []
  | some m =>
    (if m.trend = "declining" then [moodDecliningMsg] else []) ++
    (if m.volatility > 1.5 then [moodVolatileMsg] else [])

/-- The habit rules of §4.4 in order: low overall rate, then the habit
needing attention (when set to a non-empty name). -/
def habitSectionRecs : Option HabitInsights → List String
  | none => []
  | some h =>
    (if ltOpt h.overall_completion_rate 0.7 then [habitLowMsg] else []) ++
    (match h.needs_attention with
     | some name => if name ≠ "" then [needsAttentionMsg name] else []
     | none => [])

/-- The study rule of §4.4, amended: a scheduling suggestion requires a
**nonzero** best study hour together with a completion rate below 0.8. -/
def studySectionRecs : Option StudyInsights → List String
  | none => []
  | some st =>
    match st.best_study_hour with
    | some hour =>
      if hour ≠ 0 ∧ ltOpt st.completion_rate 0.8 then [studyHourMsg hour] else []
    | none => []

/-- C5 counterexample: a study series whose best hour is 0 (five sessions at
midnight, one completed, completion rate 0.2 < 0.8) produces **no**
recommendation, because `best_study_hour && ...` treats the hour 0 as unset. -/
theorem claim_C5_counterexample :
    (analyzeStudyPerformance studyFixtureHour0).best_study_hour = some 0 ∧
    (analyzeStudyPerformance studyFixtureHour0).completion_rate = some (1 / 5) ∧
    ((1 : ℚ) / 5 < 0.8) ∧
    generateRecommendations
      ⟨none, none, some (analyzeStudyPerformance studyFixtureHour0)⟩ = [] := by
  refine ⟨by decide, by decide, by decide, by decide⟩

/-- C5 (amended): recommendations are emitted by the five rules in fixed
order — mood declining, mood volatility, habit completion, needs-attention,
study scheduling — no rule suppressing another; an absent (null) section is
skipped silently; and a scheduling suggestion naming the best study hour is
emitted whenever that hour is set **and nonzero** and the study completion
rate is below 0.8. -/
theorem claim_C5_amended (i : Insights) :
    (generateRecommendations i =
      moodSectionRecs i.mood ++ habitSectionRecs i.habits ++
        studySectionRecs i.study) ∧
    (i.mood = none → generateRecommendations i =
      habitSectionRecs i.habits ++ studySectionRecs i.study) ∧
    (i.habits = none → generateRecommendations i =
      moodSectionRecs i.mood ++ studySectionRecs i.study) ∧
    (i.study = none → generateRecommendations i =
      moodSectionRecs i.mood ++ habitSectionRecs i.habits) ∧
    (∀ st hour r, i.study = some st → st.best_study_hour = some hour →
      hour ≠ 0 → st.completion_rate = some r → r < 0.8 →
      studyHourMsg hour ∈ generateRecommendations i) := by
  obtain ⟨mood, habits, study⟩ := i
  have hdec : generateRecommendations ⟨mood, habits, study⟩ =
      moodSectionRecs mood ++ habitSectionRecs habits ++
        studySectionRecs study := by
    cases mood <;> cases habits <;> cases study <;> rfl
  refine ⟨hdec, ?_, ?_, ?_, ?_⟩
  · intro h
    simp only at h
    rw [hdec, h]
    simp [moodSectionRecs]
  · intro h
    simp only at h
    rw [hdec, h]
    simp [habitSectionRecs]
  · intro h
    simp only at h
    rw [hdec, h]
    simp [studySectionRecs]
  · intro st hour r hst hbest hhour hrate hlt
    simp only at hst
    subst hst
    rw [hdec]
    apply List.mem_append_right
    simp only [studySectionRecs, hbest, hrate]
    rw [if_pos ⟨hhour, by simpa [ltOpt] using hlt⟩]
    simp

/-- Witness for C5: hour 10 with completion rate 0.2 emits the scheduling
suggestion. -/
theorem claim_C5_witness :
    studyHourMsg 10 ∈ generateRecommendations
      ⟨none, none, some (analyzeStudyPerformance studyFixtureHour10)⟩ :=
  (claim_C5_amended
      ⟨none, none, some (analyzeStudyPerformance studyFixtureHour10)⟩).2.2.2.2
    (analyzeStudyPerformance studyFixtureHour10) 10 (1 / 5) rfl (by decide)
    (by decide) (by decide) (by decide)

/-- C6: for every non-empty mood series the stored average is the arithmetic
mean rounded to 2 decimal places and the stored volatility is the population
standard deviation (sum of squared deviations over n) rounded to 2 decimal
places; constant mood level 3 over five days yields average 3, volatility 0,
trend `"stable"` and slope 0. -/
theorem claim_C6_mood_statistics (l : List MoodEntry) (hne : l ≠ []) :
    (calculateMoodInsights l).average =
      (jsRound (listMean (moodLevels l) * 100) : ℚ) / 100 ∧
    ((calculateMoodInsights l).volatility : ℝ) =
      popStdDevRound2 (moodLevels l) ∧
    (calculateMoodInsights moodFixture3s).average = 3 ∧
    (calculateMoodInsights moodFixture3s).volatility = 0 ∧
    (calculateMoodInsights moodFixture3s).trend = "stable" ∧
    (calculateMoodInsights moodFixture3s).trend_slope = some (JSNum.num 0) := by
  have hv : 0 ≤ popVariance (moodLevels l) := by
    unfold popVariance
    apply div_nonneg
    · apply List.sum_nonneg
      intro x hx
      rw [List.mem_map] at hx
      obtain ⟨y, _, rfl⟩ := hx
      positivity
    · positivity
  refine ⟨calculateMoodInsights_average l hne, ?_, by decide, by decide,
    by decide, by decide⟩
  rw [calculateMoodInsights_volatility l hne, sqrtRound2_eq_real _ hv]
  unfold popStdDevRound2 jsRoundReal
  rfl

/-- Witness for C6 at the constant fixture. -/
theorem claim_C6_witness :
    (calculateMoodInsights moodFixture3s).average =
      (jsRound (listMean (moodLevels moodFixture3s) * 100) : ℚ) / 100 :=
  (claim_C6_mood_statistics moodFixture3s (by decide)).1

/-- C7: the flat export is the header row, then the metric rows, then one row
per recommendation, numbered from 1, quoted, in category
`recommendations`; the row of the i-th recommendation is present for every
report, and a report whose single recommendation is "Drink more water"
contains the exact row `recommendation_1,"Drink more water",recommendations`. -/
theorem claim_C7_csv_rows :
    (∀ r : Report, exportReportCSVRows r =
      "metric,value,category" :: csvMetricRows r ++
        r.recommendations.enum.map recommendationRow) ∧
    (∀ (r : Report) (i : ℕ) (rec : String), r.recommendations[i]? = some rec →
      ("recommendation_" ++ toString (i + 1) ++ ",\"" ++ rec ++
        "\",recommendations") ∈ exportReportCSVRows r) ∧
    (∀ r : Report, r.recommendations = ["Drink more water"] →
      "recommendation_1,\"Drink more water\",recommendations" ∈
        exportReportCSVRows r) := by
  have hmem : ∀ (r : Report) (i : ℕ) (rec : String),
      r.recommendations[i]? = some rec →
      recommendationRow (i, rec) ∈ exportReportCSVRows r := by
    intro r i rec hget
    unfold exportReportCSVRows
    apply List.mem_cons_of_mem
    apply List.mem_append_right
    exact List.mem_map.mpr ⟨(i, rec), List.mk_mem_enum_iff_getElem?.mpr hget, rfl⟩
  refine ⟨fun r => rfl, fun r i rec hget => hmem r i rec hget, ?_⟩
  intro r hrec
  have h := hmem r 0 "Drink more water" (by rw [hrec]; rfl)
  simpa [recommendationRow] using h

/-- Witness for C7 at the fixture report with one recommendation. -/
theorem claim_C7_witness :
    "recommendation_1,\"Drink more water\",recommendations" ∈
      exportReportCSVRows reportFixtureRec :=
  claim_C7_csv_rows.2.2 reportFixtureRec rfl

/-- C8: the mood average is invariant under any permutation of the entries,
while the trend slope is not: swapping the two entries of a 2-day series with
levels 1 and 2 flips the stored slope from 1 to −1. -/
theorem claim_C8_reorder :
    (∀ l l' : List MoodEntry, l.Perm l' →
      (calculateMoodInsights l).average = (calculateMoodInsights l').average) ∧
    ([mkMoodEntry 0 1, mkMoodEntry 1 2].Perm
      [mkMoodEntry 1 2, mkMoodEntry 0 1] ∧
    (calculateMoodInsights [mkMoodEntry 0 1, mkMoodEntry 1 2]).trend_slope ≠
      (calculateMoodInsights [mkMoodEntry 1 2, mkMoodEntry 0 1]).trend_slope) := by
  constructor
  · intro l l' hperm
    by_cases hl : l = []
    · subst hl
      have hl' : l' = [] := hperm.symm.eq_nil
      subst hl'
      rfl
    · have hl' : l' ≠ [] := by
        intro h
        subst h
        exact hl hperm.eq_nil
      rw [calculateMoodInsights_average l hl, calculateMoodInsights_average l' hl']
      have hsum : (l.map (fun e => e.mood_level)).sum =
          (l'.map (fun e => e.mood_level)).sum :=
        (hperm.map (fun e => e.mood_level)).sum_eq
      have hlen : l.length = l'.length := hperm.length_eq
      unfold listMean moodLevels
      rw [hsum, List.length_map, List.length_map, hlen]
  · exact ⟨by decide, by decide⟩

/-- Witness for C8 at the 2-entry swap. -/
theorem claim_C8_witness :
    (calculateMoodInsights [mkMoodEntry 0 1, mkMoodEntry 1 2]).average =
      (calculateMoodInsights [mkMoodEntry 1 2, mkMoodEntry 0 1]).average :=
  claim_C8_reorder.1 _ _ (by decide)

/-- Every key the hour bucketing produces is an hour of day (below 24). -/
theorem hourlyBuckets_keys_lt (data : List StudySession) :
    ∀ p ∈ hourlyBuckets data, p.1 < 24 := by
  have hstep : ∀ (acc : List (ℕ × HourData)) (s : StudySession),
      (∀ p ∈ acc, p.1 < 24) → ∀ p ∈ hourStep acc s, p.1 < 24 := by
    intro acc s hacc p hp
    unfold hourStep updateKey at hp
    rw [List.mem_map] at hp
    obtain ⟨p', hp', rfl⟩ := hp
    have hp'' : p' ∈ acc ∨ p' = (s.getHours, (⟨0, 0, 0⟩ : HourData)) := by
      unfold ensureKey at hp'
      by_cases hl : (acc.lookup s.getHours).isSome
      · rw [if_pos hl] at hp'
        exact Or.inl hp'
      · rw [if_neg hl] at hp'
        rcases List.mem_append.mp hp' with h | h
        · exact Or.inl h
        · right; simpa using h
    have hk : p'.1 < 24 := by
      rcases hp'' with h | h
      · exact hacc p' h
      · rw [h]
        exact Nat.mod_lt _ (by norm_num)
    by_cases hcond : (p'.1 == s.getHours) = true
    · rw [if_pos hcond]
      exact hk
    · rw [if_neg hcond]
      exact hk
  have haux : ∀ (rest : List StudySession) (acc : List (ℕ × HourData)),
      (∀ p ∈ acc, p.1 < 24) → ∀ p ∈ rest.foldl hourStep acc, p.1 < 24 := by
    intro rest
    induction rest with
    | nil => intro acc hacc; simpa using hacc
    | cons s rest ih =>
      intro acc hacc
      simp only [List.foldl_cons]
      exact ih (hourStep acc s) (hstep acc s hacc)
  exact haux data [] (by simp)

/-- Every report the engine assembles has genuine hour keys. -/
theorem createWellnessReport_hoursValid (u : String) (p : AnalysisPeriod)
    (g : String) (mood : List MoodEntry) (habits : List HabitEntry)
    (study : List StudySession) (pd : List Unit) :
    (createWellnessReport u p g mood habits study pd).hoursValid := by
  intro st hst hp hhp q hq
  have hst' : st = analyzeStudyPerformance study := by
    have h1 : (createWellnessReport u p g mood habits study pd).insights.study =
        some (analyzeStudyPerformance study) := rfl
    rw [h1] at hst
    exact (Option.some_inj.mp hst).symm
  subst hst'
  by_cases hse : study.isEmpty
  · rw [show analyzeStudyPerformance study = emptyStudyInsights by
      simp [analyzeStudyPerformance, hse]] at hhp
    simp [emptyStudyInsights] at hhp
  · have h2 : (analyzeStudyPerformance study).hourly_patterns =
        some (hourlyBuckets study) := by
      simp [analyzeStudyPerformance, hse]
    rw [h2] at hhp
    have hp' : hp = hourlyBuckets study := (Option.some_inj.mp hhp).symm
    subst hp'
    exact hourlyBuckets_keys_lt study q hq

/-- Every assembled report whose mood series is not a single entry stores no
NaN: the trend slope is then either absent (empty series) or a genuine
rounded slope. -/
theorem createWellnessReport_nanFree (u : String) (p : AnalysisPeriod)
    (g : String) (mood : List MoodEntry) (habits : List HabitEntry)
    (study : List StudySession) (pd : List Unit) (hlen : mood.length ≠ 1) :
    (createWellnessReport u p g mood habits study pd).nanFree := by
  intro m hm
  have hm' : m = calculateMoodInsights mood := by
    have h1 : (createWellnessReport u p g mood habits study pd).insights.mood =
        some (calculateMoodInsights mood) := rfl
    rw [h1] at hm
    exact (Option.some_inj.mp hm).symm
  subst hm'
  by_cases hemp : mood.isEmpty
  · rw [show calculateMoodInsights mood = emptyMoodInsights by
      simp [calculateMoodInsights, hemp]]
    simp [emptyMoodInsights]
  · have hne : mood ≠ [] := by simpa [List.isEmpty_iff] using hemp
    have h0 : mood.length ≠ 0 := by simpa [List.length_eq_zero] using hne
    have h2 : 2 ≤ mood.length := by omega
    rw [calculateMoodInsights_slope mood h2]
    simp

/-- A report assembled from a single mood entry: `calculateTrend` divides
0 by 0, so the stored trend slope is NaN. -/
def reportSingleMood : Report :=
  createWellnessReport "user_1" ⟨30, "2026-09-11", "2026-10-11"⟩
    "2026-10-11T00:00:00Z" [mkMoodEntry 0 3] [] [] []

/-- C9 counterexample: the report assembled from a single mood entry stores
`trend_slope = NaN`; its JSON export serializes the NaN as null, which
decodes to an absent value, so decoding succeeds but the result is not
deep-equal to the original report — the round trip fails on an assembled
report. -/
theorem claim_C9_counterexample :
    (calculateMoodInsights [mkMoodEntry 0 3]).trend_slope = some JSNum.nan ∧
    (decodeReport (encodeReport reportSingleMood)).isSome = true ∧
    decodeReport (encodeReport reportSingleMood) ≠ some reportSingleMood := by
  refine ⟨by decide, by decide, by decide⟩

/-- C9 (amended): decoding the structured (JSON) export yields the report
back for every report that stores **no NaN** — its one NaN-able field, the
mood trend slope, holds a genuine number wherever present, which is the case
for every assembled report except those with a single-entry mood series —
and whose hour-bucket keys are hours of day (true of every assembled
report). -/
theorem claim_C9_amended (r : Report) (h24 : r.hoursValid) (hnan : r.nanFree) :
    decodeReport (encodeReport r) = some r :=
  decodeReport_enc r h24 hnan

/-- Witness for C9 at the fixture report (five mood entries). -/
theorem claim_C9_witness :
    decodeReport (encodeReport reportFixture) = some reportFixture :=
  claim_C9_amended reportFixture
    (createWellnessReport_hoursValid "user_1" ⟨30, "2026-09-11", "2026-10-11"⟩
      "2026-10-11T00:00:00Z" moodFixture15 habitFixture studyFixtureHour10 [])
    (createWellnessReport_nanFree "user_1" ⟨30, "2026-09-11", "2026-10-11"⟩
      "2026-10-11T00:00:00Z" moodFixture15 habitFixture studyFixtureHour10 []
      (by decide))
